import Mathlib

/-!
Verification of the heimdex-media-contracts core library: temporal segment
assignment, OCR gating, segment ranking, shorts scoring, timestamp sampling
and the EDL/FCPXML export generators.

The Python sources are embedded shallowly:
* Python `float` values are idealised as exact rationals (`ℚ`);
* Python `int` is `ℤ`;
* Python strings are Lean `String`s (sequences of unicode code points);
* Python dicts keyed by strings are insertion-ordered association lists;
* fallible functions (those that can raise) return `Except String _`.
-/

/-- Python `int(q)`: truncation toward zero of a rational. -/
def pyTrunc (q : ℚ) : ℤ := q.num.tdiv q.den

/-- Python `round(q)`: round half to even. -/
def pyRound (q : ℚ) : ℤ :=
  if q - ⌊q⌋ < 1/2 then ⌊q⌋
  else if 1/2 < q - ⌊q⌋ then ⌊q⌋ + 1
  else if ⌊q⌋ % 2 = 0 then ⌊q⌋ else ⌊q⌋ + 1

/-- Python `round(q, nd)`: round to `nd` decimal places, half to even. -/
def pyRoundTo (q : ℚ) (nd : ℕ) : ℚ :=
  (pyRound (q * (10 : ℚ) ^ nd) : ℚ) / (10 : ℚ) ^ nd

/-- Python list slice `l[:k]`, including the negative-index convention:
a negative `k` counts from the end of the list. -/
def pySliceTo {α : Type} (l : List α) (k : ℤ) : List α :=
  l.take (if 0 ≤ k then k.toNat else ((l.length : ℤ) + k).toNat)

/-- Python `str.strip()` on the underlying character list: remove leading and
trailing whitespace. -/
def stripChars (l : List Char) : List Char :=
  ((l.dropWhile Char.isWhitespace).reverse.dropWhile Char.isWhitespace).reverse

/-- Python `str.strip()`: remove leading and trailing whitespace. -/
def pyStrip (s : String) : String := ⟨stripChars s.data⟩

/-- Characters matched by the regex `[\wㄱ-ㆎ가-힣]` of
`ocr/gating.py`: word characters plus Hangul compatibility jamo and Hangul
syllables.  (`\w` is modelled on its ASCII fragment: letters, digits and
underscore; all inputs appearing in the theorems below are ASCII or Hangul.) -/
def usefulChar (c : Char) : Bool :=
  c.isAlphanum || c == '_' ||
    (0x3131 ≤ c.toNat && c.toNat ≤ 0x318E) ||
    (0xAC00 ≤ c.toNat && c.toNat ≤ 0xD7A3)

/-- `len(_USEFUL_CHAR_RE.findall(s))`: the number of useful characters. -/
def useful_count (s : String) : ℕ := (s.data.filter usefulChar).length

/-- `is_noise_text` from `ocr/gating.py`: true when the ratio of useful
characters to total characters of the stripped text is below `threshold`,
and always true on empty/whitespace-only text. -/
def is_noise_text (text : String) (threshold : ℚ) : Bool :=
  let stripped := pyStrip text
  if stripped.length = 0 then true
  else decide ((useful_count stripped : ℚ) / (stripped.length : ℚ) < threshold)

/-- `gate_ocr_text` from `ocr/gating.py`.  Python defaults:
`min_chars = 3`, `max_chars = 10000`, `noise_threshold = 1/2`. -/
def gate_ocr_text (text : String) (min_chars max_chars : ℤ) (noise_threshold : ℚ) :
    String :=
  if ((pyStrip text).length : ℤ) < min_chars then ""
  else if is_noise_text (pyStrip text) noise_threshold then ""
  else if max_chars < ((pyStrip text).length : ℤ) then ⟨pySliceTo (pyStrip text).data max_chars⟩
  else pyStrip text

/-! Helper lemmas about `dropWhile`, used for idempotence of `pyStrip`. -/

theorem dropWhile_head_false {α : Type} (p : α → Bool) :
    ∀ (l : List α) (a : α) (as : List α), l.dropWhile p = a :: as → p a = false := by
  intro l
  induction l with
  | nil => intro a as h; simp [List.dropWhile] at h
  | cons b t ih =>
    intro a as h
    rw [List.dropWhile_cons] at h
    by_cases hb : p b
    · simp [hb] at h; exact ih a as h
    · simp [hb] at h
      rcases h with ⟨h1, _⟩
      simp [← h1]; simpa using hb

theorem getLast?_cons_of_ne {α : Type} (b : α) (t : List α) (ht : t ≠ []) :
    (b :: t).getLast? = t.getLast? := by
  cases t with
  | nil => exact absurd rfl ht
  | cons c u => exact List.getLast?_cons_cons

theorem dropWhile_getLast? {α : Type} (p : α → Bool) :
    ∀ (l : List α), l.dropWhile p ≠ [] → (l.dropWhile p).getLast? = l.getLast? := by
  intro l
  induction l with
  | nil => intro h; simp [List.dropWhile] at h
  | cons b t ih =>
    intro h
    rw [List.dropWhile_cons]
    by_cases hb : p b
    · rw [List.dropWhile_cons, if_pos hb] at h
      rw [if_pos hb, ih h]
      have ht : t ≠ [] := by
        intro hnil; rw [hnil] at h; simp [List.dropWhile] at h
      exact (getLast?_cons_of_ne b t ht).symm
    · rw [if_neg hb]

theorem dropWhile_of_head_false {α : Type} (p : α → Bool) (l : List α)
    (h : ∀ a ∈ l.head?, p a = false) : l.dropWhile p = l := by
  cases l with
  | nil => rfl
  | cons a t =>
    have := h a (by simp)
    rw [List.dropWhile_cons, this]
    simp

theorem dropWhile_dropWhile {α : Type} (p : α → Bool) (l : List α) :
    (l.dropWhile p).dropWhile p = l.dropWhile p := by
  apply dropWhile_of_head_false
  intro a ha
  cases hd : l.dropWhile p with
  | nil => rw [hd] at ha; simp at ha
  | cons b t =>
    rw [hd] at ha; simp at ha
    subst ha
    exact dropWhile_head_false p l b t hd

theorem stripChars_idem (l : List Char) : stripChars (stripChars l) = stripChars l := by
  unfold stripChars
  set w := Char.isWhitespace with hw
  set A := l.dropWhile w with hA
  set B := A.reverse.dropWhile w with hB
  have h1 : B.reverse.dropWhile w = B.reverse := by
    apply dropWhile_of_head_false
    intro a ha
    rw [List.head?_reverse] at ha
    have hBne : B ≠ [] := by
      intro hnil; rw [hnil] at ha; simp at ha
    have h2 : B.getLast? = A.reverse.getLast? := by
      rw [hB]; exact dropWhile_getLast? w A.reverse (hB ▸ hBne)
    rw [h2, List.getLast?_reverse] at ha
    rcases hAc : A with _ | ⟨c, u⟩
    · rw [hAc] at ha
      simp at ha
    · rw [hAc] at ha
      simp at ha
      subst ha
      exact dropWhile_head_false w l c u (by rw [← hA, hAc])
  rw [h1, List.reverse_reverse, hB, dropWhile_dropWhile]

/-- `pyStrip` is idempotent. -/
theorem pyStrip_idem (s : String) : pyStrip (pyStrip s) = pyStrip s := by
  unfold pyStrip
  exact congrArg String.mk (stripChars_idem s.data)

theorem pyStrip_ne_empty_length {s : String} (h : pyStrip s ≠ "") :
    (pyStrip s).length ≠ 0 := by
  intro hlen
  apply h
  have hdata : (pyStrip s).data = [] := List.length_eq_zero.mp hlen
  have heta : pyStrip s = ⟨(pyStrip s).data⟩ := rfl
  rw [heta, hdata]

/-- Evaluation fact: gating `"abcdefgh"` with `max_chars = -5` returns `"abc"`
(Python's negative slice index drops the last five characters). -/
theorem gate_ocr_text_eval_neg : gate_ocr_text "abcdefgh" 3 (-5) (1/2) = "abc" := by
  have h1 : pyStrip "abcdefgh" = "abcdefgh" := by decide
  have hlen : ("abcdefgh" : String).length = 8 := by decide
  have h2 : useful_count "abcdefgh" = 8 := by decide
  have h3 : is_noise_text "abcdefgh" (1/2) = false := by
    simp only [is_noise_text, h1, h2, hlen]
    norm_num
  simp only [gate_ocr_text, h1, h3, hlen]
  norm_num
  decide

/-- C6 counterexample: the claimed bound
`len(gate_ocr_text(x, max_chars=N)) ≤ N` fails for the input
`x = "abcdefgh"`, `N = -5`: the result is `"abc"` of length `3 > -5`. -/
theorem gate_ocr_text_length_bound_fails :
    ¬ (((gate_ocr_text "abcdefgh" 3 (-5) (1/2)).length : ℤ) ≤ -5) := by
  rw [gate_ocr_text_eval_neg]
  decide

/-- C6 (amended): `gate_ocr_text` is total and only degrades to empty: its
result is either `""` or a prefix of the stripped input; gating `""` or
`"   "` yields `""`; a stripped input shorter than `min_chars` yields `""`;
a stripped input whose useful-character ratio is below `noise_threshold`
yields `""`; and for every NON-NEGATIVE `N` the result of gating with
`max_chars = N` has length at most `N` (the original claim quantified over
all `N`, which fails for negative `N`). -/
theorem gate_ocr_text_spec :
    (∀ x minc maxc th, gate_ocr_text x minc maxc th = "" ∨
       (gate_ocr_text x minc maxc th).data <+: (pyStrip x).data) ∧
    gate_ocr_text "" 3 10000 (1/2) = "" ∧
    gate_ocr_text "   " 3 10000 (1/2) = "" ∧
    (∀ x minc maxc th, ((pyStrip x).length : ℤ) < minc →
       gate_ocr_text x minc maxc th = "") ∧
    (∀ x minc maxc th, pyStrip x ≠ "" →
       ((useful_count (pyStrip x) : ℚ) / ((pyStrip x).length : ℚ) < th) →
       gate_ocr_text x minc maxc th = "") ∧
    (∀ x minc th (N : ℤ), 0 ≤ N →
       ((gate_ocr_text x minc N th).length : ℤ) ≤ N) := by
  refine ⟨?_, by decide, by decide, ?_, ?_, ?_⟩
  · intro x minc maxc th
    unfold gate_ocr_text
    split
    · exact Or.inl rfl
    · split
      · exact Or.inl rfl
      · split
        · exact Or.inr (List.take_prefix _ _)
        · exact Or.inr (List.prefix_refl _)
  · intro x minc maxc th h
    unfold gate_ocr_text
    rw [if_pos h]
  · intro x minc maxc th hne hratio
    have hnoise : is_noise_text (pyStrip x) th = true := by
      unfold is_noise_text
      rw [pyStrip_idem]
      rw [if_neg (pyStrip_ne_empty_length hne)]
      exact decide_eq_true hratio
    unfold gate_ocr_text
    simp [hnoise]
  · intro x minc th N hN
    unfold gate_ocr_text
    split
    · simpa using hN
    · split
      · simpa using hN
      · split
        · rename_i hlt
          show ((String.mk (pySliceTo (pyStrip x).data N)).length : ℤ) ≤ N
          have : (String.mk (pySliceTo (pyStrip x).data N)).length
              = (pySliceTo (pyStrip x).data N).length := rfl
          rw [this]
          unfold pySliceTo
          rw [if_pos hN, List.length_take]
          calc ((min N.toNat (pyStrip x).data.length : ℕ) : ℤ)
              ≤ (N.toNat : ℤ) := by exact_mod_cast Nat.min_le_left _ _
            _ = N := Int.toNat_of_nonneg hN
        · rename_i hle
          push_neg at hle
          exact hle

/-- Witness for `gate_ocr_text_spec`: the hypothesised conjuncts applied at
concrete inputs. -/
theorem gate_ocr_text_spec_witness :
    gate_ocr_text "ab" 3 10000 (1/2) = "" ∧
    gate_ocr_text "%%%%" 3 10000 (1/2) = "" ∧
    ((gate_ocr_text "hello" 3 4 (1/2)).length : ℤ) ≤ 4 := by
  have hu : useful_count (pyStrip "%%%%") = 0 := by decide
  have hl : (pyStrip "%%%%").length = 4 := by decide
  refine ⟨?_, ?_, ?_⟩
  · exact gate_ocr_text_spec.2.2.2.1 "ab" 3 10000 (1/2) (by decide)
  · refine gate_ocr_text_spec.2.2.2.2.1 "%%%%" 3 10000 (1/2) (by decide) ?_
    rw [hu, hl]
    norm_num
  · exact gate_ocr_text_spec.2.2.2.2.2 "hello" 3 (1/2) 4 (by decide)

/-! ## Scene boundaries, speech segments and the temporal assigner
(`scenes/merge.py`). -/

/-- `SceneBoundary` from `scenes/schemas.py` (plain field data; the
construction-time validators are modelled by `SceneBoundary.validate`
further below). -/
structure SceneBoundary where
  scene_id : String
  index : ℤ
  start_ms : ℤ
  end_ms : ℤ
  keyframe_timestamp_ms : ℤ
  keyframe_path : Option String
deriving DecidableEq

/-- A segment-like input of `assign_segments_to_scenes`: the
`SpeechSegmentLike` protocol of `scenes/merge.py` (`start`/`end` in seconds,
`text`).  The Python field `end` is a Lean keyword, hence `end_`. -/
structure Segment where
  start : ℚ
  end_ : ℚ
  text : String
deriving DecidableEq

/-- Seconds-to-milliseconds conversion of the assigner: `int(x * 1000)`. -/
def segMs (x : ℚ) : ℤ := pyTrunc (x * 1000)

/-- The overlap computed in the inner loop of `assign_segments_to_scenes`:
`max(0, min(seg_end, scene.end_ms) - max(seg_start, scene.start_ms))`. -/
def segOverlap (scene : SceneBoundary) (seg_start_ms seg_end_ms : ℤ) : ℤ :=
  max 0 (min seg_end_ms scene.end_ms - max seg_start_ms scene.start_ms)

/-- Millisecond overlap of a segment (seconds) with a scene. -/
def overlapOf (seg : Segment) (scene : SceneBoundary) : ℤ :=
  segOverlap scene (segMs seg.start) (segMs seg.end_)

/-- One step of the best-scene scan: the running `(best_scene_id,
best_overlap)` pair is replaced exactly when `overlap > best_overlap`. -/
def bestStep (s e : ℤ) (acc : Option String × ℤ) (scene : SceneBoundary) :
    Option String × ℤ :=
  if acc.2 < segOverlap scene s e then (some scene.scene_id, segOverlap scene s e)
  else acc

/-- The best-scene scan of `assign_segments_to_scenes`, starting from
`(None, 0)`. -/
def bestSceneFold (scenes : List SceneBoundary) (s e : ℤ) : Option String × ℤ :=
  scenes.foldl (bestStep s e) (none, 0)

/-- Largest overlap of `(s, e)` against a scene list (`0` if empty). -/
def maxOverlap (s e : ℤ) : List SceneBoundary → ℤ
  | [] => 0
  | sc :: rest => max (segOverlap sc s e) (maxOverlap s e rest)

/-- Spec-side description of the assigned scene, following the claim's words:
the earliest scene (in input order) whose overlap is positive and not
exceeded by any other scene. -/
def firstBestScene (s e : ℤ) : List SceneBoundary → Option String
  | [] => none
  | sc :: rest =>
      if 0 < segOverlap sc s e ∧ maxOverlap s e rest ≤ segOverlap sc s e
      then some sc.scene_id
      else firstBestScene s e rest

theorem segOverlap_nonneg (sc : SceneBoundary) (s e : ℤ) : 0 ≤ segOverlap sc s e :=
  le_max_left _ _

theorem maxOverlap_nonneg (s e : ℤ) : ∀ l, 0 ≤ maxOverlap s e l
  | [] => le_refl 0
  | sc :: rest => le_trans (maxOverlap_nonneg s e rest) (le_max_right _ _)

theorem le_maxOverlap (s e : ℤ) {sc : SceneBoundary} :
    ∀ {l : List SceneBoundary}, sc ∈ l → segOverlap sc s e ≤ maxOverlap s e l := by
  intro l
  induction l with
  | nil => intro h; simp at h
  | cons a rest ih =>
    intro h
    rcases List.mem_cons.mp h with h1 | h2
    · subst h1; exact le_max_left _ _
    · exact le_trans (ih h2) (le_max_right _ _)

theorem maxOverlap_le_of_forall (s e : ℤ) {v : ℤ} (hv : 0 ≤ v) :
    ∀ {l : List SceneBoundary}, (∀ sc ∈ l, segOverlap sc s e ≤ v) →
      maxOverlap s e l ≤ v := by
  intro l
  induction l with
  | nil => intro _; exact hv
  | cons a rest ih =>
    intro h
    exact max_le (h a (by simp)) (ih (fun sc hsc => h sc (List.mem_cons_of_mem a hsc)))

/-- If nothing beats the accumulator the scan never updates. -/
theorem bestFold_le (s e : ℤ) :
    ∀ (l : List SceneBoundary) (acc : Option String × ℤ),
      maxOverlap s e l ≤ acc.2 → l.foldl (bestStep s e) acc = acc := by
  intro l
  induction l with
  | nil => intro acc _; rfl
  | cons sc rest ih =>
    intro acc h
    have h1 : segOverlap sc s e ≤ acc.2 := le_trans (le_max_left _ _) h
    have h2 : maxOverlap s e rest ≤ acc.2 := le_trans (le_max_right _ _) h
    rw [List.foldl_cons]
    rw [show bestStep s e acc sc = acc from if_neg (not_lt.mpr h1)]
    exact ih acc h2

/-- If something beats the accumulator the scan returns the first scene
attaining the maximum overlap, with that overlap. -/
theorem bestFold_gt (s e : ℤ) :
    ∀ (l : List SceneBoundary) (acc : Option String × ℤ), 0 ≤ acc.2 →
      acc.2 < maxOverlap s e l →
      ∃ sc, l.find? (fun sc => decide (segOverlap sc s e = maxOverlap s e l)) = some sc ∧
        l.foldl (bestStep s e) acc = (some sc.scene_id, maxOverlap s e l) := by
  intro l
  induction l with
  | nil =>
    intro acc h0 h
    simp [maxOverlap] at h
    omega
  | cons sc rest ih =>
    intro acc h0 h
    by_cases hcmp : maxOverlap s e rest ≤ segOverlap sc s e
    · -- the head attains the overall maximum
      have hmax : maxOverlap s e (sc :: rest) = segOverlap sc s e := max_eq_left hcmp
      by_cases hacc : acc.2 < segOverlap sc s e
      · refine ⟨sc, ?_, ?_⟩
        · rw [List.find?_cons, hmax]
          simp
        · rw [List.foldl_cons, show bestStep s e acc sc = (some sc.scene_id, segOverlap sc s e) from if_pos hacc]
          rw [hmax]
          exact bestFold_le s e rest _ hcmp
      · rw [hmax] at h
        exact absurd h hacc
    · -- the maximum is attained strictly later
      push_neg at hcmp
      have hmax : maxOverlap s e (sc :: rest) = maxOverlap s e rest :=
        max_eq_right (le_of_lt hcmp)
      have hstep : 0 ≤ (bestStep s e acc sc).2 ∧ (bestStep s e acc sc).2 < maxOverlap s e rest := by
        unfold bestStep
        split
        · exact ⟨segOverlap_nonneg sc s e, hcmp⟩
        · rw [hmax] at h; exact ⟨h0, h⟩
      obtain ⟨sc', hfind, hfold⟩ := ih (bestStep s e acc sc) hstep.1 hstep.2
      refine ⟨sc', ?_, ?_⟩
      · rw [List.find?_cons, hmax]
        have : (decide (segOverlap sc s e = maxOverlap s e rest)) = false := by
          simp; exact ne_of_lt hcmp
        rw [this]
        exact hfind
      · rw [List.foldl_cons, hmax]
        exact hfold

theorem firstBestScene_none (s e : ℤ) :
    ∀ l, maxOverlap s e l ≤ 0 → firstBestScene s e l = none := by
  intro l
  induction l with
  | nil => intro _; rfl
  | cons sc rest ih =>
    intro h
    have h1 : segOverlap sc s e ≤ 0 := le_trans (le_max_left _ _) h
    have h2 : maxOverlap s e rest ≤ 0 := le_trans (le_max_right _ _) h
    unfold firstBestScene
    rw [if_neg (by intro hc; exact absurd (lt_of_lt_of_le hc.1 h1) (lt_irrefl 0))]
    exact ih h2

theorem firstBestScene_pos (s e : ℤ) :
    ∀ l, 0 < maxOverlap s e l →
      firstBestScene s e l =
        (l.find? (fun sc => decide (segOverlap sc s e = maxOverlap s e l))).map
          (fun sc => sc.scene_id) := by
  intro l
  induction l with
  | nil => intro h; simp [maxOverlap] at h
  | cons sc rest ih =>
    intro h
    by_cases hcmp : maxOverlap s e rest ≤ segOverlap sc s e
    · have hmax : maxOverlap s e (sc :: rest) = segOverlap sc s e := max_eq_left hcmp
      have hpos : 0 < segOverlap sc s e := by rw [hmax] at h; exact h
      unfold firstBestScene
      rw [if_pos ⟨hpos, hcmp⟩, List.find?_cons, hmax]
      simp
    · push_neg at hcmp
      have hmax : maxOverlap s e (sc :: rest) = maxOverlap s e rest :=
        max_eq_right (le_of_lt hcmp)
      unfold firstBestScene
      rw [if_neg (by intro hc; exact absurd hc.2 (not_le.mpr hcmp))]
      rw [List.find?_cons, hmax]
      have hne : (decide (segOverlap sc s e = maxOverlap s e rest)) = false := by
        simp; exact ne_of_lt hcmp
      rw [hne]
      exact ih (by rw [hmax] at h; exact h)

/-- The inner scan of the assigner computes exactly the spec-side
first-best-scene selection. -/
theorem bestSceneFold_eq_firstBestScene (scenes : List SceneBoundary) (s e : ℤ) :
    (bestSceneFold scenes s e).1 = firstBestScene s e scenes := by
  unfold bestSceneFold
  by_cases h : maxOverlap s e scenes ≤ 0
  · rw [bestFold_le s e scenes (none, 0) h, firstBestScene_none s e scenes h]
  · push_neg at h
    obtain ⟨sc, hfind, hfold⟩ := bestFold_gt s e scenes (none, 0) (le_refl 0) h
    rw [hfold, firstBestScene_pos s e scenes h, hfind]
    rfl

/-- `firstBestScene` is exactly "the earliest scene attaining the strictly
largest positive overlap": it returns `some sid` iff the scene list splits as
`pre ++ sc :: post` where `sc` carries id `sid`, has positive overlap, no
scene has larger overlap, and every scene before `sc` has strictly smaller
overlap. -/
theorem firstBestScene_iff (s e : ℤ) (scenes : List SceneBoundary) (sid : String) :
    firstBestScene s e scenes = some sid ↔
      ∃ pre sc post, scenes = pre ++ sc :: post ∧ sc.scene_id = sid ∧
        0 < segOverlap sc s e ∧
        (∀ sc' ∈ scenes, segOverlap sc' s e ≤ segOverlap sc s e) ∧
        (∀ sc' ∈ pre, segOverlap sc' s e < segOverlap sc s e) := by
  constructor
  · intro h
    induction scenes with
    | nil => simp [firstBestScene] at h
    | cons a rest ih =>
      unfold firstBestScene at h
      by_cases hc : 0 < segOverlap a s e ∧ maxOverlap s e rest ≤ segOverlap a s e
      · rw [if_pos hc] at h
        refine ⟨[], a, rest, by simp, by simpa using h, hc.1, ?_, by simp⟩
        intro sc' hsc'
        rcases List.mem_cons.mp hsc' with h1 | h2
        · subst h1; exact le_refl _
        · exact le_trans (le_maxOverlap s e h2) hc.2
      · rw [if_neg hc] at h
        obtain ⟨pre, sc, post, hsplit, hid, hpos, hmaxall, hpre⟩ := ih h
        have hscmem : sc ∈ rest := by rw [hsplit]; simp
        have hax : segOverlap a s e < segOverlap sc s e := by
          rcases not_and_or.mp hc with h1 | h1
          · push_neg at h1
            exact lt_of_le_of_lt h1 hpos
          · push_neg at h1
            calc segOverlap a s e < maxOverlap s e rest := h1
              _ ≤ segOverlap sc s e := maxOverlap_le_of_forall s e
                  (segOverlap_nonneg sc s e) hmaxall
        refine ⟨a :: pre, sc, post, by simp [hsplit], hid, hpos, ?_, ?_⟩
        · intro sc' hsc'
          rcases List.mem_cons.mp hsc' with h1 | h2
          · subst h1; exact le_of_lt hax
          · exact hmaxall sc' h2
        · intro sc' hsc'
          rcases List.mem_cons.mp hsc' with h1 | h2
          · subst h1; exact hax
          · exact hpre sc' h2
  · rintro ⟨pre, sc, post, hsplit, hid, hpos, hmaxall, hpre⟩
    subst hsplit
    induction pre with
    | nil =>
      simp only [List.nil_append] at hmaxall ⊢
      unfold firstBestScene
      rw [if_pos ⟨hpos, maxOverlap_le_of_forall s e (segOverlap_nonneg sc s e)
        (fun sc' hsc' => hmaxall sc' (List.mem_cons_of_mem sc hsc'))⟩]
      rw [hid]
    | cons a pre' ih =>
      have hax : segOverlap a s e < segOverlap sc s e := hpre a (by simp)
      have hmaxall' : ∀ sc' ∈ pre' ++ sc :: post,
          segOverlap sc' s e ≤ segOverlap sc s e :=
        fun sc' hsc' => hmaxall sc' (List.mem_cons_of_mem a hsc')
      have hpre' : ∀ sc' ∈ pre', segOverlap sc' s e < segOverlap sc s e :=
        fun sc' hsc' => hpre sc' (List.mem_cons_of_mem a hsc')
      show firstBestScene s e (a :: (pre' ++ sc :: post)) = some sid
      unfold firstBestScene
      rw [if_neg ?_]
      · exact ih hpre' hmaxall'
      · intro hcond
        have hscmem : sc ∈ pre' ++ sc :: post := by simp
        have hle := le_trans (le_maxOverlap s e hscmem) hcond.2
        exact absurd (lt_of_lt_of_le hax hle) (lt_irrefl _)

/-- The Python result dict: an insertion-ordered association list with
unique keys. -/
abbrev SegDict := List (String × List Segment)

/-- `{s.scene_id: [] for s in scenes}` one key at a time: a fresh key is
appended with value `[]`; a duplicate key is re-set to `[]` in place
(Python dict-comprehension semantics). -/
def dictInsertEmpty (d : SegDict) (k : String) : SegDict :=
  if d.any (fun p => decide (p.1 = k)) then
    d.map (fun p => if p.1 = k then (p.1, ([] : List Segment)) else p)
  else d ++ [(k, [])]

/-- `result[k].append(v)`: append `v` to the entry with key `k`. -/
def dictAppend (d : SegDict) (k : String) (v : Segment) : SegDict :=
  d.map (fun p => if p.1 = k then (p.1, p.2 ++ [v]) else p)

/-- One iteration of the per-segment loop of `assign_segments_to_scenes`. -/
def assignStep (scenes : List SceneBoundary) (d : SegDict) (seg : Segment) : SegDict :=
  match (bestSceneFold scenes (segMs seg.start) (segMs seg.end_)).1 with
  | none => d
  | some sid => dictAppend d sid seg

/-- Ordering of the final per-scene sort (`key=lambda s: _get_start(s)`). -/
def segLE (a b : Segment) : Prop := a.start ≤ b.start

instance : DecidableRel segLE := fun a b => inferInstanceAs (Decidable (a.start ≤ b.start))

instance : IsTotal Segment segLE := ⟨fun a b => le_total a.start b.start⟩

instance : IsTrans Segment segLE := ⟨fun _ _ _ h1 h2 => le_trans h1 h2⟩

/-- `assign_segments_to_scenes` from `scenes/merge.py`: initialise every
scene id with `[]`, assign each segment to its best-overlap scene (skipping
segments with no positive overlap), then sort each per-scene list by
segment start (Python's sort is stable; `insertionSort` is the stable
sort). -/
def assignBase (scenes : List SceneBoundary) : SegDict :=
  scenes.foldl (fun d sc => dictInsertEmpty d sc.scene_id) []

def assignFilled (scenes : List SceneBoundary) (segments : List Segment) : SegDict :=
  segments.foldl (assignStep scenes) (assignBase scenes)

def assign_segments_to_scenes (scenes : List SceneBoundary)
    (segments : List Segment) : SegDict :=
  (assignFilled scenes segments).map (fun p => (p.1, p.2.insertionSort segLE))

/-! Dictionary lemmas. -/

theorem dictInsertEmpty_key (d : SegDict) (k k' : String) :
    (∃ l, (k, l) ∈ dictInsertEmpty d k') ↔ ((∃ l, (k, l) ∈ d) ∨ k = k') := by
  unfold dictInsertEmpty
  by_cases hany : d.any (fun p => decide (p.1 = k')) = true
  · rw [if_pos hany]
    obtain ⟨p0, hp0, hp0k⟩ := List.any_eq_true.mp hany
    simp only [decide_eq_true_eq] at hp0k
    constructor
    · rintro ⟨l, hl⟩
      obtain ⟨p, hp, hpe⟩ := List.mem_map.mp hl
      by_cases hpk : p.1 = k'
      · rw [if_pos hpk] at hpe
        injection hpe with ha hb
        left
        exact ⟨p.2, by rw [← ha]; simpa using hp⟩
      · rw [if_neg hpk] at hpe
        left
        exact ⟨l, by rw [← hpe]; simpa using hp⟩
    · intro h
      rcases h with ⟨l, hl⟩ | hk
      · by_cases hpk : k = k'
        · refine ⟨[], List.mem_map.mpr ⟨(k, l), hl, ?_⟩⟩
          rw [if_pos hpk]
        · refine ⟨l, List.mem_map.mpr ⟨(k, l), hl, ?_⟩⟩
          rw [if_neg hpk]
      · subst hk
        refine ⟨[], List.mem_map.mpr ⟨p0, hp0, ?_⟩⟩
        rw [if_pos hp0k, hp0k]
  · rw [if_neg hany]
    constructor
    · rintro ⟨l, hl⟩
      rcases List.mem_append.mp hl with h1 | h2
      · exact Or.inl ⟨l, h1⟩
      · simp at h2
        exact Or.inr h2.1
    · intro h
      rcases h with ⟨l, hl⟩ | hk
      · exact ⟨l, List.mem_append.mpr (Or.inl hl)⟩
      · subst hk
        exact ⟨[], List.mem_append.mpr (Or.inr (by simp))⟩

theorem dictInsertEmpty_values (d : SegDict) (k' : String)
    (h : ∀ kl ∈ d, kl.2 = ([] : List Segment)) :
    ∀ kl ∈ dictInsertEmpty d k', kl.2 = [] := by
  intro kl hkl
  unfold dictInsertEmpty at hkl
  split at hkl
  · obtain ⟨p, hp, hpe⟩ := List.mem_map.mp hkl
    by_cases hpk : p.1 = k'
    · rw [if_pos hpk] at hpe; rw [← hpe]
    · rw [if_neg hpk] at hpe; rw [← hpe]; exact h p hp
  · rcases List.mem_append.mp hkl with h1 | h2
    · exact h kl h1
    · simp at h2
      rw [h2]

theorem foldIns_keys (scenes : List SceneBoundary) :
    ∀ (d : SegDict) (k : String),
      (∃ l, (k, l) ∈ scenes.foldl (fun d sc => dictInsertEmpty d sc.scene_id) d) ↔
        ((∃ l, (k, l) ∈ d) ∨ k ∈ scenes.map (fun sc => sc.scene_id)) := by
  induction scenes with
  | nil => intro d k; simp
  | cons sc rest ih =>
    intro d k
    rw [List.foldl_cons, ih]
    rw [dictInsertEmpty_key]
    simp only [List.map_cons, List.mem_cons]
    tauto

theorem foldIns_values (scenes : List SceneBoundary) :
    ∀ (d : SegDict), (∀ kl ∈ d, kl.2 = ([] : List Segment)) →
      ∀ kl ∈ scenes.foldl (fun d sc => dictInsertEmpty d sc.scene_id) d,
        kl.2 = [] := by
  induction scenes with
  | nil => intro d h; exact h
  | cons sc rest ih =>
    intro d h
    rw [List.foldl_cons]
    exact ih _ (dictInsertEmpty_values d sc.scene_id h)

theorem dictAppend_mem (d : SegDict) (k' : String) (v : Segment)
    {kl : String × List Segment} (h : kl ∈ dictAppend d k' v) :
    ∃ l0, (kl.1, l0) ∈ d ∧ (kl.2 = l0 ∨ (kl.1 = k' ∧ kl.2 = l0 ++ [v])) := by
  obtain ⟨p, hp, hpe⟩ := List.mem_map.mp h
  by_cases hpk : p.1 = k'
  · rw [if_pos hpk] at hpe
    refine ⟨p.2, ?_, ?_⟩
    · rw [← hpe]; simpa using hp
    · right
      constructor
      · rw [← hpe]; exact hpk
      · rw [← hpe]
  · rw [if_neg hpk] at hpe
    refine ⟨kl.2, ?_, Or.inl rfl⟩
    rw [show (kl.1, kl.2) = kl from rfl, ← hpe]
    exact hp

theorem dictAppend_mem_of (d : SegDict) (k k' : String) (l0 : List Segment)
    (v : Segment) (h : (k, l0) ∈ d) :
    (k, if k = k' then l0 ++ [v] else l0) ∈ dictAppend d k' v := by
  unfold dictAppend
  by_cases hk : k = k'
  · rw [if_pos hk]
    exact List.mem_map.mpr ⟨(k, l0), h, by rw [if_pos hk]⟩
  · rw [if_neg hk]
    exact List.mem_map.mpr ⟨(k, l0), h, by rw [if_neg hk]⟩

theorem assignStep_key (scenes : List SceneBoundary) (seg : Segment) (d : SegDict)
    (k : String) :
    (∃ l, (k, l) ∈ assignStep scenes d seg) ↔ (∃ l, (k, l) ∈ d) := by
  unfold assignStep
  cases hm : (bestSceneFold scenes (segMs seg.start) (segMs seg.end_)).1 with
  | none => exact Iff.rfl
  | some sid =>
    constructor
    · rintro ⟨l, hl⟩
      obtain ⟨l0, hl0, _⟩ := dictAppend_mem d sid seg hl
      exact ⟨l0, hl0⟩
    · rintro ⟨l, hl⟩
      by_cases hk : k = sid
      · exact ⟨l ++ [seg], by
          have := dictAppend_mem_of d k sid l seg hl
          rw [if_pos hk] at this; exact this⟩
      · exact ⟨l, by
          have := dictAppend_mem_of d k sid l seg hl
          rw [if_neg hk] at this; exact this⟩

theorem foldAssign_key (scenes : List SceneBoundary) :
    ∀ (segs : List Segment) (d : SegDict) (k : String),
      (∃ l, (k, l) ∈ segs.foldl (assignStep scenes) d) ↔ (∃ l, (k, l) ∈ d) := by
  intro segs
  induction segs with
  | nil => intro d k; exact Iff.rfl
  | cons seg1 rest ih =>
    intro d k
    rw [List.foldl_cons, ih, assignStep_key]

theorem assignStep_preserve (scenes : List SceneBoundary) (seg1 : Segment)
    (d : SegDict) {k : String} {l : List Segment} {seg0 : Segment}
    (h : (k, l) ∈ d) (hseg : seg0 ∈ l) :
    ∃ l', (k, l') ∈ assignStep scenes d seg1 ∧ seg0 ∈ l' := by
  unfold assignStep
  cases hm : (bestSceneFold scenes (segMs seg1.start) (segMs seg1.end_)).1 with
  | none => exact ⟨l, h, hseg⟩
  | some sid =>
    by_cases hk : k = sid
    · refine ⟨l ++ [seg1], ?_, List.mem_append.mpr (Or.inl hseg)⟩
      have := dictAppend_mem_of d k sid l seg1 h
      rw [if_pos hk] at this; exact this
    · refine ⟨l, ?_, hseg⟩
      have := dictAppend_mem_of d k sid l seg1 h
      rw [if_neg hk] at this; exact this

theorem foldAssign_preserve (scenes : List SceneBoundary) :
    ∀ (segs : List Segment) (d : SegDict) {k : String} {l : List Segment}
      {seg0 : Segment}, (k, l) ∈ d → seg0 ∈ l →
      ∃ l', (k, l') ∈ segs.foldl (assignStep scenes) d ∧ seg0 ∈ l' := by
  intro segs
  induction segs with
  | nil => intro d k l seg0 h hseg; exact ⟨l, h, hseg⟩
  | cons seg1 rest ih =>
    intro d k l seg0 h hseg
    rw [List.foldl_cons]
    obtain ⟨l', hl', hseg'⟩ := assignStep_preserve scenes seg1 d h hseg
    exact ih _ hl' hseg'

theorem foldAssign_origin (scenes : List SceneBoundary) :
    ∀ (segs : List Segment) (d : SegDict) (kl : String × List Segment),
      kl ∈ segs.foldl (assignStep scenes) d →
      ∀ seg ∈ kl.2, (∃ l0, (kl.1, l0) ∈ d ∧ seg ∈ l0) ∨
        (seg ∈ segs ∧
          firstBestScene (segMs seg.start) (segMs seg.end_) scenes = some kl.1) := by
  intro segs
  induction segs with
  | nil =>
    intro d kl h seg hseg
    exact Or.inl ⟨kl.2, by rw [show (kl.1, kl.2) = kl from rfl]; exact h, hseg⟩
  | cons seg1 rest ih =>
    intro d kl h seg hseg
    rw [List.foldl_cons] at h
    rcases ih (assignStep scenes d seg1) kl h seg hseg with ⟨l0, hl0, hsegl0⟩ | ⟨hmem, hbest⟩
    · unfold assignStep at hl0
      revert hl0
      cases hm : (bestSceneFold scenes (segMs seg1.start) (segMs seg1.end_)).1 with
      | none =>
        intro hl0
        exact Or.inl ⟨l0, hl0, hsegl0⟩
      | some sid =>
        intro hl0
        obtain ⟨l00, hl00, hcase⟩ := dictAppend_mem d sid seg1 hl0
        dsimp only at hl00 hcase
        rcases hcase with hsame | ⟨hkey, happ⟩
        · exact Or.inl ⟨l00, hl00, hsame ▸ hsegl0⟩
        · rw [happ] at hsegl0
          rcases List.mem_append.mp hsegl0 with hin | hnew
          · exact Or.inl ⟨l00, hl00, hin⟩
          · simp at hnew
            subst hnew
            refine Or.inr ⟨by simp, ?_⟩
            rw [← bestSceneFold_eq_firstBestScene, hm, hkey]
    · exact Or.inr ⟨List.mem_cons_of_mem seg1 hmem, hbest⟩

theorem foldAssign_reach (scenes : List SceneBoundary) :
    ∀ (segs : List Segment) (d : SegDict) (seg : Segment) (sid : String),
      seg ∈ segs →
      firstBestScene (segMs seg.start) (segMs seg.end_) scenes = some sid →
      (∃ l, (sid, l) ∈ d) →
      ∃ l, (sid, l) ∈ segs.foldl (assignStep scenes) d ∧ seg ∈ l := by
  intro segs
  induction segs with
  | nil => intro d seg sid h; simp at h
  | cons seg1 rest ih =>
    intro d seg sid hmem hbest hkey
    rw [List.foldl_cons]
    rcases List.mem_cons.mp hmem with heq | hrest
    · subst heq
      obtain ⟨l, hl⟩ := hkey
      have hstep : (sid, l ++ [seg]) ∈ assignStep scenes d seg := by
        unfold assignStep
        rw [show (bestSceneFold scenes (segMs seg.start) (segMs seg.end_)).1 = some sid
          from (bestSceneFold_eq_firstBestScene scenes _ _).trans hbest]
        have := dictAppend_mem_of d sid sid l seg hl
        rw [if_pos rfl] at this
        exact this
      exact foldAssign_preserve scenes rest _ hstep (List.mem_append.mpr (Or.inr (by simp)))
    · refine ih (assignStep scenes d seg1) seg sid hrest hbest ?_
      exact (assignStep_key scenes seg1 d sid).mpr hkey

theorem assign_reach (scenes : List SceneBoundary) (segments : List Segment)
    (seg : Segment) (sid : String) (hmem : seg ∈ segments)
    (hbest : firstBestScene (segMs seg.start) (segMs seg.end_) scenes = some sid) :
    ∃ l, (sid, l) ∈ assign_segments_to_scenes scenes segments ∧ seg ∈ l := by
  obtain ⟨pre, sc, post, hsplit, hid, _, _, _⟩ :=
    (firstBestScene_iff _ _ scenes sid).mp hbest
  have hidmem : sid ∈ scenes.map (fun sc => sc.scene_id) :=
    List.mem_map.mpr ⟨sc, by rw [hsplit]; simp, hid⟩
  have hkey : ∃ l, (sid, l) ∈ assignBase scenes :=
    (foldIns_keys scenes [] sid).mpr (Or.inr hidmem)
  obtain ⟨l, hl, hsegl⟩ := foldAssign_reach scenes segments (assignBase scenes) seg sid
    hmem hbest hkey
  refine ⟨l.insertionSort segLE, ?_, ?_⟩
  · exact List.mem_map.mpr ⟨(sid, l), hl, rfl⟩
  · exact (List.perm_insertionSort segLE l).mem_iff.mpr hsegl

theorem assign_zero_dropped (scenes : List SceneBoundary) (segments : List Segment)
    (seg : Segment) (hz : ∀ sc ∈ scenes, overlapOf seg sc = 0) :
    ∀ kl ∈ assign_segments_to_scenes scenes segments, seg ∉ kl.2 := by
  intro kl hkl hseg
  obtain ⟨p, hp, hpe⟩ := List.mem_map.mp hkl
  have hseg2 : seg ∈ p.2 := by
    rw [← hpe] at hseg
    exact (List.perm_insertionSort segLE p.2).mem_iff.mp hseg
  rcases foldAssign_origin scenes segments (assignBase scenes) p hp seg hseg2 with
    ⟨l0, hl0, hsegl0⟩ | ⟨_, hbest⟩
  · have : (p.1, l0).2 = ([] : List Segment) :=
      foldIns_values scenes [] (by intro kl h; simp at h) (p.1, l0) hl0
    dsimp only at this
    rw [this] at hsegl0
    simp at hsegl0
  · obtain ⟨pre, sc, post, hsplit, _, hpos, _, _⟩ :=
      (firstBestScene_iff _ _ scenes p.1).mp hbest
    have hscmem : sc ∈ scenes := by rw [hsplit]; simp
    have := hz sc hscmem
    unfold overlapOf at this
    rw [this] at hpos
    exact absurd hpos (lt_irrefl 0)

/-- C1: `assign_segments_to_scenes` (i) has exactly the input scene ids as
keys, (ii) keeps every per-scene list sorted ascending by segment start,
(iii) puts a segment only in the list of the earliest scene attaining the
strictly largest positive truncated-millisecond overlap, (iv) puts every
segment with such a scene into that scene's list, (v) drops every segment
whose overlap with every scene is zero, and (vi) `firstBestScene` is exactly
the "strictly largest overlap, earlier scene wins ties" selection of the
claim. -/
theorem assign_segments_to_scenes_spec (scenes : List SceneBoundary)
    (segments : List Segment) :
    (∀ k, (∃ l, (k, l) ∈ assign_segments_to_scenes scenes segments) ↔
        k ∈ scenes.map (fun sc => sc.scene_id)) ∧
    (∀ kl ∈ assign_segments_to_scenes scenes segments, List.Sorted segLE kl.2) ∧
    (∀ kl ∈ assign_segments_to_scenes scenes segments, ∀ seg ∈ kl.2,
        seg ∈ segments ∧
        firstBestScene (segMs seg.start) (segMs seg.end_) scenes = some kl.1) ∧
    (∀ seg ∈ segments, ∀ sid,
        firstBestScene (segMs seg.start) (segMs seg.end_) scenes = some sid →
        ∃ l, (sid, l) ∈ assign_segments_to_scenes scenes segments ∧ seg ∈ l) ∧
    (∀ seg ∈ segments, (∀ sc ∈ scenes, overlapOf seg sc = 0) →
        ∀ kl ∈ assign_segments_to_scenes scenes segments, seg ∉ kl.2) ∧
    (∀ s e sid, firstBestScene s e scenes = some sid ↔
      ∃ pre sc post, scenes = pre ++ sc :: post ∧ sc.scene_id = sid ∧
        0 < segOverlap sc s e ∧
        (∀ sc' ∈ scenes, segOverlap sc' s e ≤ segOverlap sc s e) ∧
        (∀ sc' ∈ pre, segOverlap sc' s e < segOverlap sc s e)) := by
  refine ⟨?_, ?_, ?_, ?_, ?_, ?_⟩
  · intro k
    constructor
    · rintro ⟨l, hl⟩
      obtain ⟨p, hp, hpe⟩ := List.mem_map.mp hl
      have hkey : ∃ l0, (k, l0) ∈ assignFilled scenes segments := by
        refine ⟨p.2, ?_⟩
        injection hpe with ha hb
        rw [← ha]
        simpa using hp
      have := (foldAssign_key scenes segments (assignBase scenes) k).mp hkey
      rcases (foldIns_keys scenes [] k).mp this with ⟨l0, h0⟩ | hmem
      · simp at h0
      · exact hmem
    · intro hmem
      have hkey : ∃ l, (k, l) ∈ assignBase scenes :=
        (foldIns_keys scenes [] k).mpr (Or.inr hmem)
      have := (foldAssign_key scenes segments (assignBase scenes) k).mpr hkey
      obtain ⟨l, hl⟩ := this
      exact ⟨l.insertionSort segLE, List.mem_map.mpr ⟨(k, l), hl, rfl⟩⟩
  · intro kl hkl
    obtain ⟨p, hp, hpe⟩ := List.mem_map.mp hkl
    rw [← hpe]
    exact List.sorted_insertionSort segLE p.2
  · intro kl hkl seg hseg
    obtain ⟨p, hp, hpe⟩ := List.mem_map.mp hkl
    have hseg2 : seg ∈ p.2 := by
      rw [← hpe] at hseg
      exact (List.perm_insertionSort segLE p.2).mem_iff.mp hseg
    rcases foldAssign_origin scenes segments (assignBase scenes) p hp seg hseg2 with
      ⟨l0, hl0, hsegl0⟩ | ⟨hmem, hbest⟩
    · have : (p.1, l0).2 = ([] : List Segment) :=
        foldIns_values scenes [] (by intro kl h; simp at h) (p.1, l0) hl0
      dsimp only at this
      rw [this] at hsegl0
      simp at hsegl0
    · refine ⟨hmem, ?_⟩
      rw [hbest]
      have : p.1 = kl.1 := by rw [← hpe]
      rw [this]

  · intro seg hmem sid hbest
    exact assign_reach scenes segments seg sid hmem hbest
  · intro seg _ hz
    exact assign_zero_dropped scenes segments seg hz
  · intro s e sid
    exact firstBestScene_iff s e scenes sid

theorem pyTrunc_intCast (n : ℤ) : pyTrunc (n : ℚ) = n := by
  unfold pyTrunc
  rw [Rat.num_intCast, Rat.den_intCast, Nat.cast_one]
  exact Int.tdiv_one n

theorem segMs_eval {x : ℚ} {n : ℤ} (h1 : x * 1000 = (n : ℚ)) : segMs x = n := by
  unfold segMs
  rw [h1, pyTrunc_intCast]

theorem pyTrunc_eq_floor {q : ℚ} (h : 0 ≤ q) : pyTrunc q = ⌊q⌋ := by
  unfold pyTrunc
  rw [Int.tdiv_eq_ediv (Rat.num_nonneg.mpr h) (Int.natCast_nonneg _)]
  exact Rat.floor_def.symm

theorem pyTrunc_eq_ceil {q : ℚ} (h : q ≤ 0) : pyTrunc q = ⌈q⌉ := by
  have hnum : (-q).num = -q.num := by simp
  have hden : (-q).den = q.den := by simp
  have h1 : pyTrunc q = -pyTrunc (-q) := by
    unfold pyTrunc
    rw [hnum, hden, Int.neg_tdiv, neg_neg]
  rw [h1, pyTrunc_eq_floor (by linarith), Int.floor_neg, neg_neg]

/-- Real-valued (pre-truncation) overlap, in milliseconds. -/
def realOverlapMs (seg : Segment) (sc : SceneBoundary) : ℚ :=
  max 0 (min (seg.end_ * 1000) (sc.end_ms : ℚ) - max (seg.start * 1000) (sc.start_ms : ℚ))

/-- A one-second scene used in the concrete instances below. -/
def exScene : SceneBoundary := ⟨"v_scene_000", 0, 0, 1000, 500, none⟩

/-- A second scene (for the tie-breaking witness). -/
def exSceneB : SceneBoundary := ⟨"v_scene_001", 1, 1000, 2000, 1500, none⟩

/-- A segment of 0.0001s..0.0002s: its truncated interval is `[0, 0]` ms. -/
def exSeg : Segment := ⟨1/10000, 1/5000, "t"⟩

/-- A segment of 0.0009s..0.0015s: shorter than 1 ms, but its truncated
interval is `[0, 1]` ms. -/
def cSeg : Segment := ⟨9/10000, 3/2000, "c"⟩

/-- A segment overlapping `exScene` and `exSceneB` by 500 ms each. -/
def segTie : Segment := ⟨1/2, 3/2, "x"⟩

/-- Floor-based evaluation helper for `segMs` on non-negative inputs. -/
theorem segMs_floor_eval (x v : ℚ) (n : ℤ) (hx : 0 ≤ x) (hv : x * 1000 = v)
    (h1 : ⌊v⌋ = n) : segMs x = n := by
  unfold segMs
  rw [hv, pyTrunc_eq_floor (hv ▸ (mul_nonneg hx (by norm_num))), h1]

theorem overlapOf_exSeg : overlapOf exSeg exScene = 0 := by
  unfold overlapOf
  rw [segMs_floor_eval exSeg.start (1/10) 0 (by norm_num [exSeg]) (by norm_num [exSeg])
      (by norm_num [Int.floor_eq_iff]),
    segMs_floor_eval exSeg.end_ (1/5) 0 (by norm_num [exSeg]) (by norm_num [exSeg])
      (by norm_num [Int.floor_eq_iff])]
  decide

/-- Witness for `assign_segments_to_scenes_spec`: the tie segment overlapping
both scenes by 500 ms lands in the first scene's list. -/
theorem assign_segments_to_scenes_spec_witness :
    ∃ l, ("v_scene_000", l) ∈
        assign_segments_to_scenes [exScene, exSceneB] [segTie] ∧ segTie ∈ l := by
  have h1 : segMs segTie.start = 500 := segMs_eval (by norm_num [segTie])
  have h2 : segMs segTie.end_ = 1500 := segMs_eval (by norm_num [segTie])
  refine (assign_segments_to_scenes_spec [exScene, exSceneB] [segTie]).2.2.2.1
    segTie (by simp) "v_scene_000" ?_
  rw [h1, h2]
  decide

/-- C10 counterexample: the claim's "in particular every segment strictly
shorter than 1 ms appears in no output list" is false: `cSeg` lasts
0.0006 s < 1 ms, yet its truncated interval `[0 ms, 1 ms]` overlaps
`exScene` by 1 ms, so it IS assigned to `exScene`. -/
theorem assign_subms_segment_kept :
    cSeg.end_ - cSeg.start < 1/1000 ∧
    ∃ l, ("v_scene_000", l) ∈ assign_segments_to_scenes [exScene] [cSeg] ∧
      cSeg ∈ l := by
  constructor
  · norm_num [cSeg]
  · have h1 : segMs cSeg.start = 0 :=
      segMs_floor_eval cSeg.start (9/10) 0 (by norm_num [cSeg]) (by norm_num [cSeg])
        (by norm_num [Int.floor_eq_iff])
    have h2 : segMs cSeg.end_ = 1 :=
      segMs_floor_eval cSeg.end_ (3/2) 1 (by norm_num [cSeg]) (by norm_num [cSeg])
        (by norm_num [Int.floor_eq_iff])
    refine assign_reach [exScene] [cSeg] cSeg "v_scene_000" (by simp) ?_
    rw [h1, h2]
    decide

/-- C10 (amended): the assigner's seconds→milliseconds conversion is
truncation toward zero (floor for non-negative values, ceiling for negative
ones), and every segment whose truncated-millisecond interval overlaps every
scene by zero is absent from all output lists — even when, as for `exSeg`,
its real-valued overlap with a scene is positive.  (The claim's further
generalisation "every segment strictly shorter than 1 ms" is dropped: see
the counterexample.) -/
theorem segMs_truncation_spec :
    (∀ x : ℚ, 0 ≤ x → segMs x = ⌊x * 1000⌋) ∧
    (∀ x : ℚ, x < 0 → segMs x = ⌈x * 1000⌉) ∧
    (∀ (scenes : List SceneBoundary) (segments : List Segment) (seg : Segment),
        seg ∈ segments → (∀ sc ∈ scenes, overlapOf seg sc = 0) →
        ∀ kl ∈ assign_segments_to_scenes scenes segments, seg ∉ kl.2) ∧
    0 < realOverlapMs exSeg exScene ∧
    overlapOf exSeg exScene = 0 ∧
    (∀ kl ∈ assign_segments_to_scenes [exScene] [exSeg], exSeg ∉ kl.2) := by
  refine ⟨?_, ?_, ?_, ?_, overlapOf_exSeg, ?_⟩
  · intro x hx
    unfold segMs
    exact pyTrunc_eq_floor (by positivity)
  · intro x hx
    unfold segMs
    exact pyTrunc_eq_ceil (by nlinarith)
  · intro scenes segments seg _ hz
    exact assign_zero_dropped scenes segments seg hz
  · norm_num [realOverlapMs, exSeg, exScene]
  · exact assign_zero_dropped [exScene] [exSeg] exSeg
      (by intro sc hsc; simp at hsc; rw [hsc]; exact overlapOf_exSeg)

/-- Witness for `segMs_truncation_spec` at concrete inputs. -/
theorem segMs_truncation_spec_witness :
    segMs (3/2) = ⌊(3/2 : ℚ) * 1000⌋ ∧
    segMs (-3/2000) = ⌈(-3/2000 : ℚ) * 1000⌉ ∧
    (∀ kl ∈ assign_segments_to_scenes [exScene] [exSeg], exSeg ∉ kl.2) :=
  ⟨segMs_truncation_spec.1 (3/2) (by norm_num),
   segMs_truncation_spec.2.1 (-3/2000) (by norm_num),
   fun kl hkl => segMs_truncation_spec.2.2.1 [exScene] [exSeg] exSeg (by simp)
     (by intro sc hsc; simp at hsc; rw [hsc]; exact segMs_truncation_spec.2.2.2.2.1)
     kl hkl⟩

/-! ## Scene documents, OCR results and `merge_ocr_into_scene`
(`scenes/schemas.py`, `ocr/schemas.py`, `scenes/merge.py`). -/

/-- `SceneDocument` from `scenes/schemas.py` (plain field data).
The fields `ocr_text_raw`, `ocr_char_count`, `keyword_tags` and
`product_tags` are Modelled from the spec: they are absent from the
`SceneDocument` class in `src/scenes/schemas.py`, but the spec's data model
lists them for this entity (with empty/zero defaults) and they are read and
written by `merge_ocr_into_scene`, `shorts/scorer.py` and the repository's
tests. -/
structure SceneDocument where
  scene_id : String
  video_id : String
  index : ℤ
  start_ms : ℤ
  end_ms : ℤ
  keyframe_timestamp_ms : ℤ
  transcript_raw : String
  transcript_norm : String
  transcript_char_count : ℤ
  speech_segment_count : ℤ
  people_cluster_ids : List String
  thumbnail_path : Option String
  thumbnail_url : Option String
  ocr_text_raw : String
  ocr_char_count : ℤ
  keyword_tags : List String
  product_tags : List String
deriving DecidableEq

/-- Modelled from the spec: scene duration in milliseconds
(`scene.duration_ms`, read by `shorts/scorer.py`; the analogous
`duration_ms` properties of `ShortsCandidate` and `ExportClip` compute
`end_ms - start_ms`). -/
def SceneDocument.duration_ms (s : SceneDocument) : ℤ := s.end_ms - s.start_ms

/-- `OCRBlock` from `ocr/schemas.py`. -/
structure OCRBlock where
  text : String
  confidence : ℚ
  bbox : List ℚ
deriving DecidableEq

/-- `OCRFrameResult` from `ocr/schemas.py`. -/
structure OCRFrameResult where
  frame_ts_ms : ℤ
  blocks : List OCRBlock
  text_concat : String
  processing_time_ms : Option ℚ
deriving DecidableEq

/-- `OCRSceneResult` from `ocr/schemas.py`. -/
structure OCRSceneResult where
  scene_id : String
  frames : List OCRFrameResult
  ocr_text_raw : String
  ocr_char_count : ℤ
deriving DecidableEq

/-- `merge_ocr_into_scene` from `scenes/merge.py`: on `None` it returns an
(equal) copy of the scene; otherwise it gates the OCR text with the default
gate parameters and replaces only `ocr_text_raw`/`ocr_char_count`. -/
def merge_ocr_into_scene (scene : SceneDocument) (ocr : Option OCRSceneResult) :
    SceneDocument :=
  match ocr with
  | none => scene
  | some o =>
      { scene with
        ocr_text_raw := gate_ocr_text o.ocr_text_raw 3 10000 (1/2),
        ocr_char_count := ((gate_ocr_text o.ocr_text_raw 3 10000 (1/2)).length : ℤ) }

/-- C4: `merge_ocr_into_scene` is a no-op on `None` (so `ocr_text_raw` /
`ocr_char_count` keep the input's values — in particular their empty/zero
defaults when the input has them), idempotent on an OCR input, and in every
case leaves all non-OCR fields (transcript fields, tags, people, product
references, identifiers and timing) unchanged. -/
theorem merge_ocr_into_scene_spec :
    (∀ s, merge_ocr_into_scene s none = s) ∧
    (∀ s, (merge_ocr_into_scene s none).ocr_text_raw = s.ocr_text_raw ∧
          (merge_ocr_into_scene s none).ocr_char_count = s.ocr_char_count) ∧
    (∀ s o, merge_ocr_into_scene (merge_ocr_into_scene s (some o)) (some o) =
        merge_ocr_into_scene s (some o)) ∧
    (∀ s o, (merge_ocr_into_scene s o).transcript_raw = s.transcript_raw ∧
        (merge_ocr_into_scene s o).transcript_norm = s.transcript_norm ∧
        (merge_ocr_into_scene s o).transcript_char_count = s.transcript_char_count ∧
        (merge_ocr_into_scene s o).speech_segment_count = s.speech_segment_count ∧
        (merge_ocr_into_scene s o).keyword_tags = s.keyword_tags ∧
        (merge_ocr_into_scene s o).product_tags = s.product_tags ∧
        (merge_ocr_into_scene s o).people_cluster_ids = s.people_cluster_ids ∧
        (merge_ocr_into_scene s o).scene_id = s.scene_id ∧
        (merge_ocr_into_scene s o).video_id = s.video_id ∧
        (merge_ocr_into_scene s o).index = s.index ∧
        (merge_ocr_into_scene s o).start_ms = s.start_ms ∧
        (merge_ocr_into_scene s o).end_ms = s.end_ms ∧
        (merge_ocr_into_scene s o).keyframe_timestamp_ms = s.keyframe_timestamp_ms ∧
        (merge_ocr_into_scene s o).thumbnail_path = s.thumbnail_path ∧
        (merge_ocr_into_scene s o).thumbnail_url = s.thumbnail_url) := by
  refine ⟨fun s => rfl, fun s => ⟨rfl, rfl⟩, fun s o => rfl, fun s o => ?_⟩
  cases o with
  | none =>
    exact ⟨rfl, rfl, rfl, rfl, rfl, rfl, rfl, rfl, rfl, rfl, rfl, rfl, rfl, rfl, rfl⟩
  | some o =>
    exact ⟨rfl, rfl, rfl, rfl, rfl, rfl, rfl, rfl, rfl, rfl, rfl, rfl, rfl, rfl, rfl⟩

/-! ## Segment ranker (`speech/ranker.py`, `speech/schemas.py`). -/

/-- `TaggedSegment` from `speech/schemas.py` (dataclass, no validation). -/
structure TaggedSegment where
  start : ℚ
  end_ : ℚ
  text : String
  confidence : ℚ
  tags : List String
  tag_scores : List (String × ℚ)
deriving DecidableEq

/-- `RankedSegment` from `speech/schemas.py` (dataclass, no validation). -/
structure RankedSegment where
  start : ℚ
  end_ : ℚ
  text : String
  confidence : ℚ
  tags : List String
  tag_scores : List (String × ℚ)
  rank : ℤ
  importance_score : ℚ
deriving DecidableEq

/-- Python `d.get(k, default)` on a string-keyed rational dict. -/
def dictGetD (d : List (String × ℚ)) (k : String) (v : ℚ) : ℚ :=
  match d.find? (fun p => decide (p.1 = k)) with
  | some p => p.2
  | none => v

/-- `DEFAULT_TAG_WEIGHTS` from `speech/ranker.py`. -/
def DEFAULT_TAG_WEIGHTS : List (String × ℚ) :=
  [("cta", 1), ("price", 9/10), ("benefit", 7/10), ("coupon", 7/10),
   ("feature", 1/2), ("bundle", 1/2), ("comparison", 2/5), ("tutorial", 2/5),
   ("qna", 3/10), ("delivery", 1/5)]

/-- `SegmentRanker._score_segment`: zero without tags; otherwise the
weight-normalised tag-score sum (default weight `0.1`), clamped above at
`1.0`, and `0` when the weight sum is zero. -/
def SegmentRanker.score_segment (weights : List (String × ℚ))
    (seg : TaggedSegment) : ℚ :=
  if seg.tags = [] then 0
  else
    if (seg.tags.map (fun t => dictGetD weights t (1/10))).sum = 0 then 0
    else
      min 1 ((seg.tags.map (fun t =>
          dictGetD weights t (1/10) * dictGetD seg.tag_scores t 0)).sum /
        (seg.tags.map (fun t => dictGetD weights t (1/10))).sum)

/-- Descending-by-score order used by `scored.sort(key=..., reverse=True)`. -/
def scoredGE (a b : ℚ × TaggedSegment) : Prop := b.1 ≤ a.1

instance : DecidableRel scoredGE := fun a b => inferInstanceAs (Decidable (b.1 ≤ a.1))

instance : IsTotal (ℚ × TaggedSegment) scoredGE :=
  ⟨fun a b => by unfold scoredGE; exact le_total b.1 a.1⟩

instance : IsTrans (ℚ × TaggedSegment) scoredGE := ⟨fun _ _ _ h1 h2 => le_trans h2 h1⟩

/-- `SegmentRanker.rank`: score, stable-sort descending (Python's sort is
stable; `insertionSort` is the stable sort), then emit `RankedSegment`s with
1-indexed ranks and the score rounded to 4 decimals. -/
def SegmentRanker.rank (weights : List (String × ℚ))
    (segments : List TaggedSegment) : List RankedSegment :=
  (((segments.map (fun seg => (SegmentRanker.score_segment weights seg, seg))).insertionSort
      scoredGE).enum).map (fun p =>
    { start := p.2.2.start, end_ := p.2.2.end_, text := p.2.2.text,
      confidence := p.2.2.confidence, tags := p.2.2.tags,
      tag_scores := p.2.2.tag_scores, rank := (p.1 : ℤ) + 1,
      importance_score := pyRoundTo p.2.1 4 })

/-- The ranking pipeline written from the (amended) claim's words: per-tag
weighted average with default weight `0.1`, `0` on no tags or zero weight
sum, clamped above at `1`; stable descending sort; 1-indexed ranks; scores
rounded to 4 decimals. -/
def rankSpec (weights : List (String × ℚ))
    (segments : List TaggedSegment) : List RankedSegment :=
  (((segments.map (fun seg => (SegmentRanker.score_segment weights seg, seg))).insertionSort
      scoredGE).enum).map (fun p =>
    { start := p.2.2.start, end_ := p.2.2.end_, text := p.2.2.text,
      confidence := p.2.2.confidence, tags := p.2.2.tags,
      tag_scores := p.2.2.tag_scores, rank := (p.1 : ℤ) + 1,
      importance_score := pyRoundTo p.2.1 4 })

/-- `pyRound` is monotone. -/
theorem pyRound_mono {x y : ℚ} (h : x ≤ y) : pyRound x ≤ pyRound y := by
  unfold pyRound
  have hf : ⌊x⌋ ≤ ⌊y⌋ := Int.floor_le_floor h
  rcases lt_or_eq_of_le hf with hlt | heq
  · refine le_trans ?_ (le_trans (show ⌊x⌋ + 1 ≤ ⌊y⌋ by omega) ?_)
    · split_ifs <;> omega
    · split_ifs <;> omega
  · rw [← heq]
    split_ifs <;> first | omega | (exfalso; linarith)

/-- `pyRoundTo` is monotone. -/
theorem pyRoundTo_mono {x y : ℚ} (h : x ≤ y) (nd : ℕ) :
    pyRoundTo x nd ≤ pyRoundTo y nd := by
  unfold pyRoundTo
  have h1 : x * (10:ℚ)^nd ≤ y * (10:ℚ)^nd := by
    apply mul_le_mul_of_nonneg_right h (by positivity)
  have h2 : pyRound (x * (10:ℚ)^nd) ≤ pyRound (y * (10:ℚ)^nd) := pyRound_mono h1
  apply div_le_div_of_nonneg_right ?_ (by positivity)
  exact_mod_cast h2

/-- C5 (amended): ranking scores a no-tag segment `0`; otherwise the score
is the weighted average `Σ(w·ts)/Σ(w)` with default weight `0.1`, taken as
`0` when the weight sum is zero, CLAMPED ABOVE at `1.0` only (the claimed
lower clamp at `0` does not exist in the code — see the counterexample),
and rounded to 4 decimals in the output; the output is the stable
descending sort by the un-rounded score (hence sorted descending by
`importance_score`, input order preserved on ties of the un-rounded score)
with ranks exactly `1..n`. -/
theorem SegmentRanker_rank_spec :
    (∀ w seg, seg.tags = [] → SegmentRanker.score_segment w seg = 0) ∧
    (∀ w seg, seg.tags ≠ [] →
      SegmentRanker.score_segment w seg =
        (if (seg.tags.map (fun t => dictGetD w t (1/10))).sum = 0 then 0
         else min 1 ((seg.tags.map (fun t =>
             dictGetD w t (1/10) * dictGetD seg.tag_scores t 0)).sum /
           (seg.tags.map (fun t => dictGetD w t (1/10))).sum))) ∧
    (∀ w segments, SegmentRanker.rank w segments = rankSpec w segments) ∧
    (∀ w segments, List.Sorted (fun a b : ℚ => b ≤ a)
        ((SegmentRanker.rank w segments).map (fun r => r.importance_score))) ∧
    (∀ w segments, (SegmentRanker.rank w segments).map (fun r => r.rank) =
        (List.range segments.length).map (fun i : ℕ => (i : ℤ) + 1)) := by
  refine ⟨?_, ?_, fun w segments => rfl, ?_, ?_⟩
  · intro w seg h
    unfold SegmentRanker.score_segment
    rw [if_pos h]
  · intro w seg h
    unfold SegmentRanker.score_segment
    rw [if_neg h]
  · intro w segments
    have hmap : (SegmentRanker.rank w segments).map (fun r => r.importance_score) =
        ((segments.map (fun seg => (SegmentRanker.score_segment w seg, seg))).insertionSort
          scoredGE).map (fun p => pyRoundTo p.1 4) := by
      unfold SegmentRanker.rank
      rw [List.map_map]
      have : ((fun r : RankedSegment => r.importance_score) ∘ (fun p : ℕ × (ℚ × TaggedSegment) =>
          ({ start := p.2.2.start, end_ := p.2.2.end_, text := p.2.2.text,
             confidence := p.2.2.confidence, tags := p.2.2.tags,
             tag_scores := p.2.2.tag_scores, rank := (p.1 : ℤ) + 1,
             importance_score := pyRoundTo p.2.1 4 } : RankedSegment))) =
          ((fun q : ℚ × TaggedSegment => pyRoundTo q.1 4) ∘ Prod.snd) := rfl
      rw [this, ← List.map_map, List.enum_map_snd]
    rw [hmap]
    have hsorted : List.Sorted scoredGE
        ((segments.map (fun seg => (SegmentRanker.score_segment w seg, seg))).insertionSort
          scoredGE) := List.sorted_insertionSort scoredGE _
    rw [List.Sorted, List.pairwise_map]
    exact hsorted.imp (fun hab => pyRoundTo_mono hab 4)
  · intro w segments
    unfold SegmentRanker.rank
    rw [List.map_map]
    have : ((fun r : RankedSegment => r.rank) ∘ (fun p : ℕ × (ℚ × TaggedSegment) =>
        ({ start := p.2.2.start, end_ := p.2.2.end_, text := p.2.2.text,
           confidence := p.2.2.confidence, tags := p.2.2.tags,
           tag_scores := p.2.2.tag_scores, rank := (p.1 : ℤ) + 1,
           importance_score := pyRoundTo p.2.1 4 } : RankedSegment))) =
        ((fun i : ℕ => (i : ℤ) + 1) ∘ Prod.fst) := rfl
    rw [this, ← List.map_map, List.enum_map_fst, List.length_insertionSort,
      List.length_map]

/-- A tagged segment with a negative tag score. -/
def negSeg : TaggedSegment := ⟨0, 1, "buy now", 0, ["cta"], [("cta", -5)]⟩

/-- A tagged segment without tags. -/
def noTagSeg : TaggedSegment := ⟨0, 1, "", 0, [], []⟩

theorem score_segment_negSeg :
    SegmentRanker.score_segment DEFAULT_TAG_WEIGHTS negSeg = -5 := by
  have hw : dictGetD DEFAULT_TAG_WEIGHTS "cta" (1/10) = 1 := rfl
  have hs : dictGetD negSeg.tag_scores "cta" 0 = -5 := rfl
  unfold SegmentRanker.score_segment
  rw [if_neg (by decide : ¬ negSeg.tags = [])]
  show (if ((["cta"].map (fun t => dictGetD DEFAULT_TAG_WEIGHTS t (1/10))).sum = 0) then 0
    else min 1 ((["cta"].map (fun t =>
        dictGetD DEFAULT_TAG_WEIGHTS t (1/10) * dictGetD negSeg.tag_scores t 0)).sum /
      (["cta"].map (fun t => dictGetD DEFAULT_TAG_WEIGHTS t (1/10))).sum)) = -5
  simp only [List.map_cons, List.map_nil, List.sum_cons, List.sum_nil, hw, hs]
  norm_num

theorem pyRoundTo_neg_five : pyRoundTo (-5 : ℚ) 4 = -5 := by
  unfold pyRoundTo pyRound
  have h1 : (-5 : ℚ) * 10^4 = ((-50000 : ℤ) : ℚ) := by norm_num
  rw [h1]
  rw [Int.floor_intCast]
  norm_num

/-- C5 counterexample: with the default weight table and the tag score
`{"cta": -5}`, the emitted `importance_score` is `-5`, outside the claimed
clamp range `[0, 1]` (the code clamps only from above). -/
theorem SegmentRanker_clamp_fails :
    (SegmentRanker.rank DEFAULT_TAG_WEIGHTS [negSeg]).map
        (fun r => r.importance_score) = [(-5 : ℚ)] ∧ ¬ ((0 : ℚ) ≤ -5) := by
  constructor
  · unfold SegmentRanker.rank
    rw [show [negSeg].map (fun seg => (SegmentRanker.score_segment DEFAULT_TAG_WEIGHTS seg, seg)) =
      [((-5 : ℚ), negSeg)] by rw [List.map_cons, List.map_nil, score_segment_negSeg]]
    show [pyRoundTo (-5 : ℚ) 4] = [(-5 : ℚ)]
    rw [pyRoundTo_neg_five]
  · norm_num

/-- Witness for `SegmentRanker_rank_spec`: the hypothesised conjuncts at
concrete segments. -/
theorem SegmentRanker_rank_spec_witness :
    SegmentRanker.score_segment DEFAULT_TAG_WEIGHTS noTagSeg = 0 ∧
    SegmentRanker.score_segment DEFAULT_TAG_WEIGHTS negSeg =
      (if ((negSeg.tags.map (fun t => dictGetD DEFAULT_TAG_WEIGHTS t (1/10))).sum = 0) then 0
       else min 1 ((negSeg.tags.map (fun t =>
           dictGetD DEFAULT_TAG_WEIGHTS t (1/10) * dictGetD negSeg.tag_scores t 0)).sum /
         (negSeg.tags.map (fun t => dictGetD DEFAULT_TAG_WEIGHTS t (1/10))).sum)) :=
  ⟨SegmentRanker_rank_spec.1 DEFAULT_TAG_WEIGHTS noTagSeg rfl,
   SegmentRanker_rank_spec.2.1 DEFAULT_TAG_WEIGHTS negSeg (by decide)⟩

/-! ## Shorts scoring and selection (`shorts/scorer.py`, `shorts/schemas.py`). -/

/-- `ShortsCandidate` from `shorts/schemas.py` (plain field data; the
validators are modelled by `ShortsCandidate.validate` below). -/
structure ShortsCandidate where
  candidate_id : String
  video_id : String
  scene_ids : List String
  start_ms : ℤ
  end_ms : ℤ
  title_suggestion : String
  reason : String
  score : ℚ
  tags : List String
  product_refs : List String
  people_refs : List String
  transcript_snippet : String
deriving DecidableEq

/-- `DEFAULT_SCORING_WEIGHTS` from `shorts/scorer.py`. -/
def DEFAULT_SCORING_WEIGHTS : List (String × ℚ) :=
  [("keyword_density", 3/10), ("face_presence", 1/5),
   ("transcript_richness", 3/20), ("tag_diversity", 3/20),
   ("duration_fitness", 1/5)]

/-- `HIGH_VALUE_TAGS` from `shorts/scorer.py` (membership only). -/
def HIGH_VALUE_TAGS : List String := ["cta", "price", "benefit", "coupon"]

def MIN_DURATION_MS : ℤ := 30000

def MAX_DURATION_MS : ℤ := 60000

def IDEAL_DURATION_MS : ℤ := 45000

def TARGET_CHARS_PER_SEC : ℚ := 4

/-- `score_scene` from `shorts/scorer.py`: five weighted sub-scores, the
total clamped to `[0, 1]` and rounded to 4 decimals. -/
def score_scene (scene : SceneDocument)
    (weights : Option (List (String × ℚ))) : ℚ :=
  pyRoundTo (min 1 (max 0 (
    dictGetD (weights.getD DEFAULT_SCORING_WEIGHTS) "keyword_density" (3/10) *
      min 1 (((scene.keyword_tags.filter
        (fun t => decide (t ∈ HIGH_VALUE_TAGS))).length : ℚ) / 3) +
    dictGetD (weights.getD DEFAULT_SCORING_WEIGHTS) "face_presence" (1/5) *
      (if scene.people_cluster_ids ≠ [] then 1 else 0) +
    dictGetD (weights.getD DEFAULT_SCORING_WEIGHTS) "transcript_richness" (3/20) *
      min 1 (((scene.transcript_char_count : ℚ) /
        max ((scene.duration_ms : ℚ) / 1000) (1/1000)) / TARGET_CHARS_PER_SEC) +
    dictGetD (weights.getD DEFAULT_SCORING_WEIGHTS) "tag_diversity" (3/20) *
      min 1 ((((scene.keyword_tags ++ scene.product_tags).dedup).length : ℚ) / 5) +
    dictGetD (weights.getD DEFAULT_SCORING_WEIGHTS) "duration_fitness" (1/5) *
      (if scene.duration_ms < MIN_DURATION_MS then
        max 0 (1 - ((MIN_DURATION_MS - scene.duration_ms : ℤ) : ℚ) / (MIN_DURATION_MS : ℚ))
      else if MAX_DURATION_MS < scene.duration_ms then
        max 0 (1 - ((scene.duration_ms - MAX_DURATION_MS : ℤ) : ℚ) / (MAX_DURATION_MS : ℚ))
      else
        1 - ((|scene.duration_ms - IDEAL_DURATION_MS| : ℤ) : ℚ) /
          ((MAX_DURATION_MS - MIN_DURATION_MS : ℤ) : ℚ) * (1/2))))) 4

/-- Descending-by-score order of `scored.sort(..., reverse=True)`. -/
def scoredSceneGE (a b : ℚ × SceneDocument) : Prop := b.1 ≤ a.1

instance : DecidableRel scoredSceneGE := fun a b => inferInstanceAs (Decidable (b.1 ≤ a.1))

instance : IsTotal (ℚ × SceneDocument) scoredSceneGE :=
  ⟨fun a b => by unfold scoredSceneGE; exact le_total b.1 a.1⟩

instance : IsTrans (ℚ × SceneDocument) scoredSceneGE :=
  ⟨fun _ _ _ h1 h2 => le_trans h2 h1⟩

/-- Zero-padding of `f"{i:03d}"` for a natural index. -/
def pad3 (n : ℕ) : String :=
  if (toString n).length < 3 then
    String.mk (List.replicate (3 - (toString n).length) '0') ++ toString n
  else toString n

/-- `select_shorts_candidates` from `shorts/scorer.py`: filter scenes to the
duration window, score, stable-sort descending, take the first
`target_count` (a natural number: Python's `scored[:target_count]` for the
non-negative counts the API is called with) and emit candidates. -/
def select_shorts_candidates (scenes : List SceneDocument) (target_count : ℕ)
    (min_duration_ms max_duration_ms : ℤ)
    (weights : Option (List (String × ℚ))) : List ShortsCandidate :=
  (((((scenes.filter (fun s =>
        !(decide (s.duration_ms < min_duration_ms) ||
          decide (max_duration_ms < s.duration_ms)))).map
      (fun s => (score_scene s weights, s))).insertionSort
        scoredSceneGE).take target_count).enum).map
    (fun p =>
      { candidate_id := p.2.2.video_id ++ "_shorts_" ++ pad3 p.1,
        video_id := p.2.2.video_id,
        scene_ids := [p.2.2.scene_id],
        start_ms := p.2.2.start_ms,
        end_ms := p.2.2.end_ms,
        title_suggestion := "",
        reason := "",
        score := p.2.1,
        tags := p.2.2.keyword_tags,
        product_refs := p.2.2.product_tags,
        people_refs := p.2.2.people_cluster_ids,
        transcript_snippet := String.mk (p.2.2.transcript_raw.data.take 200) })

theorem pyRound_cases (q : ℚ) : pyRound q = ⌊q⌋ ∨ pyRound q = ⌊q⌋ + 1 := by
  unfold pyRound
  split_ifs <;> simp

theorem pyRoundTo_nonneg {q : ℚ} (h : 0 ≤ q) (nd : ℕ) : 0 ≤ pyRoundTo q nd := by
  unfold pyRoundTo
  apply div_nonneg ?_ (by positivity)
  have hfl : (0 : ℤ) ≤ ⌊q * (10:ℚ)^nd⌋ := Int.floor_nonneg.mpr (by positivity)
  rcases pyRound_cases (q * (10:ℚ)^nd) with hc | hc <;> rw [hc]
  · exact_mod_cast hfl
  · exact_mod_cast (by omega : (0:ℤ) ≤ ⌊q * (10:ℚ)^nd⌋ + 1)

theorem pyRound_intCast (n : ℤ) : pyRound ((n : ℤ) : ℚ) = n := by
  unfold pyRound
  rw [Int.floor_intCast]
  rw [if_pos (by norm_num)]

theorem pyRoundTo_le_one {q : ℚ} (h : q ≤ 1) (nd : ℕ) : pyRoundTo q nd ≤ 1 := by
  unfold pyRoundTo
  rw [div_le_one (by positivity)]
  have h1 : q * (10:ℚ)^nd ≤ ((10^nd : ℤ) : ℚ) := by
    push_cast
    nlinarith [pow_pos (show (0:ℚ) < 10 by norm_num) nd]
  have h2 : pyRound (q * (10:ℚ)^nd) ≤ pyRound ((10^nd : ℤ) : ℚ) := pyRound_mono h1
  rw [pyRound_intCast] at h2
  calc ((pyRound (q * (10:ℚ)^nd) : ℤ) : ℚ) ≤ ((10^nd : ℤ) : ℚ) := by exact_mod_cast h2
    _ = (10:ℚ)^nd := by push_cast; ring

/-- C7: `select_shorts_candidates` returns at most `target_count`
candidates, each within the duration window (inclusive), sorted descending
by score; and `score_scene` is always in `[0, 1]`. -/
theorem select_shorts_candidates_spec :
    (∀ scenes target minD maxD w,
      (select_shorts_candidates scenes target minD maxD w).length ≤ target) ∧
    (∀ scenes target minD maxD w,
      ∀ c ∈ select_shorts_candidates scenes target minD maxD w,
        minD ≤ c.end_ms - c.start_ms ∧ c.end_ms - c.start_ms ≤ maxD) ∧
    (∀ scenes target minD maxD w, List.Sorted (fun a b : ℚ => b ≤ a)
      ((select_shorts_candidates scenes target minD maxD w).map
        (fun c => c.score))) ∧
    (∀ scene w, 0 ≤ score_scene scene w ∧ score_scene scene w ≤ 1) := by
  refine ⟨?_, ?_, ?_, ?_⟩
  · intro scenes target minD maxD w
    unfold select_shorts_candidates
    rw [List.length_map, List.enum_length]
    exact le_trans (List.length_take_le _ _) (le_refl _)
  · intro scenes target minD maxD w c hc
    unfold select_shorts_candidates at hc
    obtain ⟨p, hp, hpe⟩ := List.mem_map.mp hc
    have hp2 : p.2 ∈ (((scenes.filter (fun s =>
        !(decide (s.duration_ms < minD) || decide (maxD < s.duration_ms)))).map
          (fun s => (score_scene s w, s))).insertionSort scoredSceneGE).take target := by
      have := List.mem_map_of_mem Prod.snd hp
      rwa [List.enum_map_snd] at this
    have hp3 := List.mem_of_mem_take hp2
    have hp4 := (List.perm_insertionSort scoredSceneGE _).mem_iff.mp hp3
    obtain ⟨s, hs, hse⟩ := List.mem_map.mp hp4
    have hsf := List.mem_filter.mp hs
    have hbounds : minD ≤ s.duration_ms ∧ s.duration_ms ≤ maxD := by
      have := hsf.2
      simp at this
      exact this
    have hsp : p.2.2 = s := by rw [← hse]
    have hce : c.end_ms = s.end_ms := by rw [← hpe]; dsimp only; rw [hsp]
    have hcs : c.start_ms = s.start_ms := by rw [← hpe]; dsimp only; rw [hsp]
    have hd : s.duration_ms = s.end_ms - s.start_ms := rfl
    rw [hce, hcs]
    omega
  · intro scenes target minD maxD w
    unfold select_shorts_candidates
    rw [List.map_map]
    have hcomp : ((fun c : ShortsCandidate => c.score) ∘
        (fun p : ℕ × (ℚ × SceneDocument) =>
          ({ candidate_id := p.2.2.video_id ++ "_shorts_" ++ pad3 p.1,
             video_id := p.2.2.video_id, scene_ids := [p.2.2.scene_id],
             start_ms := p.2.2.start_ms, end_ms := p.2.2.end_ms,
             title_suggestion := "", reason := "", score := p.2.1,
             tags := p.2.2.keyword_tags, product_refs := p.2.2.product_tags,
             people_refs := p.2.2.people_cluster_ids,
             transcript_snippet := String.mk (p.2.2.transcript_raw.data.take 200) }
            : ShortsCandidate))) =
        ((fun q : ℚ × SceneDocument => q.1) ∘ Prod.snd) := rfl
    rw [hcomp, ← List.map_map, List.enum_map_snd]
    rw [List.Sorted, List.pairwise_map]
    have hsorted := List.sorted_insertionSort scoredSceneGE
      ((scenes.filter (fun s =>
        !(decide (s.duration_ms < minD) || decide (maxD < s.duration_ms)))).map
          (fun s => (score_scene s w, s)))
    exact (hsorted.sublist (List.take_sublist target _)).imp (fun h => h)
  · intro scene w
    unfold score_scene
    constructor
    · exact pyRoundTo_nonneg (le_min (by norm_num) (le_max_left 0 _)) 4
    · exact pyRoundTo_le_one (min_le_left 1 _) 4

/-! ## Timestamp sampling (`faces/sampling.py`). -/

/-- `_dedupe_sorted` from `faces/sampling.py`: sort ascending, round each
value to `nd` decimals, and keep the first occurrence of each rounded key
(the emitted elements are the rounded keys, as `float(key)` is appended;
the `seen` set holds exactly the emitted keys, so membership in the result
models membership in `seen`). -/
def dedupe_sorted (values : List ℚ) (nd : ℕ) : List ℚ :=
  (values.insertionSort (fun a b : ℚ => a ≤ b)).foldl
    (fun acc v => if pyRoundTo v nd ∈ acc then acc else acc ++ [pyRoundTo v nd]) []

/-- `sample_timestamps` from `faces/sampling.py`.  The uniform-grid loop
`t = 0.0; while t <= duration_s: append t; t += step` with
`step = 1.0 / fps` accumulates `t = k * (1/fps)` exactly in rational
arithmetic, so it appends precisely the values `k * (1/fps)` for
`k = 0 .. ⌊duration_s * fps⌋`. -/
def sample_timestamps (duration_s fps : ℚ) (scene_boundaries_s : List ℚ)
    (boundary_window_s : ℚ) : Except String (List ℚ) :=
  if fps ≤ 0 then .error "fps must be greater than 0"
  else if duration_s < 0 then .error "duration_s must be nonnegative"
  else if duration_s = 0 then .ok []
  else
    .ok (dedupe_sorted
      ((List.range (⌊duration_s * fps⌋.toNat + 1)).map (fun k : ℕ => (k : ℚ) * (1 / fps)) ++
        (if scene_boundaries_s.isEmpty then [] else
          (scene_boundaries_s.map (fun b =>
            ([-boundary_window_s, -boundary_window_s / 2, 0,
              boundary_window_s / 2, boundary_window_s].map (fun off => b + off)).filter
              (fun ts => decide (0 ≤ ts ∧ ts ≤ duration_s)))).join)) 3)

theorem pyRound_le_add_half (q : ℚ) : (pyRound q : ℚ) ≤ q + 1/2 := by
  unfold pyRound
  have h1 := Int.floor_le q
  have h2 := Int.sub_one_lt_floor q
  split_ifs with hc1 hc2 hc3 <;> push_cast <;> linarith

theorem pyRound_nonneg {q : ℚ} (h : 0 ≤ q) : 0 ≤ pyRound q := by
  have hfl : (0 : ℤ) ≤ ⌊q⌋ := Int.floor_nonneg.mpr h
  rcases pyRound_cases q with hc | hc <;> omega

theorem pyRoundTo_le_add (q : ℚ) : pyRoundTo q 3 ≤ q + 1/2000 := by
  unfold pyRoundTo
  rw [div_le_iff (by positivity)]
  calc (pyRound (q * (10:ℚ)^3) : ℚ) ≤ q * (10:ℚ)^3 + 1/2 := pyRound_le_add_half _
    _ = (q + 1/2000) * (10:ℚ)^3 := by ring

theorem pyRoundTo_nonneg3 {q : ℚ} (h : 0 ≤ q) : 0 ≤ pyRoundTo q 3 :=
  pyRoundTo_nonneg h 3

/-- The dedupe fold of `_dedupe_sorted`: on a sorted input and a strictly
increasing accumulator below all upcoming keys, it yields a strictly
increasing list whose new elements are rounded input values. -/
theorem dedupe_fold (nd : ℕ) :
    ∀ (l : List ℚ) (acc : List ℚ), l.Pairwise (fun a b : ℚ => a ≤ b) →
      acc.Pairwise (fun a b : ℚ => a < b) →
      (∀ x ∈ acc, ∀ v ∈ l, x ≤ pyRoundTo v nd) →
      (l.foldl (fun acc v =>
          if pyRoundTo v nd ∈ acc then acc else acc ++ [pyRoundTo v nd]) acc).Pairwise
        (fun a b : ℚ => a < b) ∧
      (∀ x ∈ l.foldl (fun acc v =>
          if pyRoundTo v nd ∈ acc then acc else acc ++ [pyRoundTo v nd]) acc,
        x ∈ acc ∨ ∃ v ∈ l, x = pyRoundTo v nd) := by
  intro l
  induction l with
  | nil =>
    intro acc _ hacc _
    exact ⟨hacc, fun x hx => Or.inl hx⟩
  | cons v rest ih =>
    intro acc hsort hacc hle
    have hvle : ∀ v' ∈ rest, v ≤ v' := (List.pairwise_cons.mp hsort).1
    have hrest : rest.Pairwise (fun a b : ℚ => a ≤ b) := (List.pairwise_cons.mp hsort).2
    rw [List.foldl_cons]
    by_cases hmem : pyRoundTo v nd ∈ acc
    · rw [if_pos hmem]
      have hle' : ∀ x ∈ acc, ∀ v' ∈ rest, x ≤ pyRoundTo v' nd :=
        fun x hx v' hv' => hle x hx v' (List.mem_cons_of_mem v hv')
      obtain ⟨h1, h2⟩ := ih acc hrest hacc hle'
      refine ⟨h1, fun x hx => ?_⟩
      rcases h2 x hx with hx1 | ⟨v', hv', he⟩
      · exact Or.inl hx1
      · exact Or.inr ⟨v', List.mem_cons_of_mem v hv', he⟩
    · rw [if_neg hmem]
      have hacc' : (acc ++ [pyRoundTo v nd]).Pairwise (fun a b : ℚ => a < b) := by
        rw [List.pairwise_append]
        refine ⟨hacc, by simp, ?_⟩
        intro x hx y hy
        simp at hy
        subst hy
        exact lt_of_le_of_ne (hle x hx v (by simp)) (fun he => hmem (he ▸ hx))
      have hle' : ∀ x ∈ acc ++ [pyRoundTo v nd], ∀ v' ∈ rest, x ≤ pyRoundTo v' nd := by
        intro x hx v' hv'
        rcases List.mem_append.mp hx with hx1 | hx2
        · exact hle x hx1 v' (List.mem_cons_of_mem v hv')
        · simp at hx2
          subst hx2
          exact pyRoundTo_mono (hvle v' hv') nd
      obtain ⟨h1, h2⟩ := ih (acc ++ [pyRoundTo v nd]) hrest hacc' hle'
      refine ⟨h1, fun x hx => ?_⟩
      rcases h2 x hx with hx1 | ⟨v', hv', he⟩
      · rcases List.mem_append.mp hx1 with hy1 | hy2
        · exact Or.inl hy1
        · simp at hy2
          exact Or.inr ⟨v, by simp, hy2⟩
      · exact Or.inr ⟨v', List.mem_cons_of_mem v hv', he⟩

theorem dedupe_sorted_spec (values : List ℚ) :
    (dedupe_sorted values 3).Pairwise (fun a b : ℚ => a < b) ∧
    ∀ x ∈ dedupe_sorted values 3, ∃ v ∈ values, x = pyRoundTo v 3 := by
  unfold dedupe_sorted
  obtain ⟨h1, h2⟩ := dedupe_fold 3
    (values.insertionSort (fun a b : ℚ => a ≤ b)) []
    (List.sorted_insertionSort (fun a b : ℚ => a ≤ b) values)
    (by simp) (by simp)
  refine ⟨h1, fun x hx => ?_⟩
  rcases h2 x hx with h | ⟨v, hv, he⟩
  · simp at h
  · exact ⟨v, (List.perm_insertionSort _ _).mem_iff.mp hv, he⟩

theorem pyRoundTo_intCast (n : ℤ) (nd : ℕ) :
    pyRoundTo ((n : ℤ) : ℚ) nd = ((n : ℤ) : ℚ) := by
  unfold pyRoundTo
  rw [show ((n : ℤ) : ℚ) * (10:ℚ)^nd = (((n * 10^nd : ℤ)) : ℚ) by push_cast; ring,
    pyRound_intCast]
  push_cast
  rw [mul_div_assoc, div_self (by positivity), mul_one]

/-- Evaluation: the concrete example `sample_timestamps(3.0, 1.0)`. -/
theorem sample_timestamps_eval_3 :
    sample_timestamps 3 1 [] (1/2) = Except.ok [0, 1, 2, 3] := by
  unfold sample_timestamps
  rw [if_neg (by norm_num), if_neg (by norm_num), if_neg (by norm_num)]
  have hfl : ⌊(3:ℚ) * 1⌋ = 3 := by
    rw [show (3:ℚ) * 1 = ((3:ℤ):ℚ) by norm_num, Int.floor_intCast]
  rw [hfl]
  rw [show Int.toNat 3 + 1 = 4 by decide]
  rw [show List.range 4 = [0, 1, 2, 3] by decide]
  have hgrid : List.map (fun k : ℕ => (k : ℚ) * (1/1)) [0, 1, 2, 3] =
      [0, 1, 2, 3] := by norm_num
  rw [hgrid]
  rw [show (List.isEmpty ([] : List ℚ)) = true from rfl, if_pos rfl, List.append_nil]
  have h0 : pyRoundTo (0:ℚ) 3 = 0 := by exact_mod_cast pyRoundTo_intCast 0 3
  have h1 : pyRoundTo (1:ℚ) 3 = 1 := by exact_mod_cast pyRoundTo_intCast 1 3
  have h2 : pyRoundTo (2:ℚ) 3 = 2 := by exact_mod_cast pyRoundTo_intCast 2 3
  have h3 : pyRoundTo (3:ℚ) 3 = 3 := by exact_mod_cast pyRoundTo_intCast 3 3
  have hsort : List.insertionSort (fun a b : ℚ => a ≤ b) [0, 1, 2, 3] =
      [0, 1, 2, 3] := by norm_num [List.insertionSort, List.orderedInsert]
  unfold dedupe_sorted
  rw [hsort]
  simp only [List.foldl_cons, List.foldl_nil, h0, h1, h2, h3]
  norm_num

/-- C8 (amended): `sample_timestamps` fails exactly on `fps ≤ 0` or negative
duration; zero duration yields `[]`; `(3.0, 1.0)` yields `[0, 1, 2, 3]`; and
every successful result is strictly increasing (sorted and de-duplicated)
with every element in `[0, duration_s + 0.0005]` — the rounding to three
decimals can push an element up to half a thousandth ABOVE `duration_s`
(see the counterexample), so the claimed upper bound `duration_s` holds
only up to that slack. -/
theorem sample_timestamps_spec :
    (∀ d f b w, (∃ msg, sample_timestamps d f b w = Except.error msg) ↔
      (f ≤ 0 ∨ d < 0)) ∧
    sample_timestamps 0 1 [] (1/2) = Except.ok [] ∧
    sample_timestamps 3 1 [] (1/2) = Except.ok [0, 1, 2, 3] ∧
    (∀ d f b w l, sample_timestamps d f b w = Except.ok l →
      l.Pairwise (fun a b : ℚ => a < b) ∧
      ∀ x ∈ l, 0 ≤ x ∧ x ≤ d + 1/2000) := by
  refine ⟨?_, ?_, sample_timestamps_eval_3, ?_⟩
  · intro d f b w
    constructor
    · rintro ⟨msg, hmsg⟩
      by_contra hno
      push_neg at hno
      unfold sample_timestamps at hmsg
      rw [if_neg (not_le.mpr hno.1), if_neg (not_lt.mpr hno.2)] at hmsg
      split at hmsg <;> exact absurd hmsg (by simp)
    · intro h
      rcases h with hf | hd
      · exact ⟨"fps must be greater than 0", by unfold sample_timestamps; rw [if_pos hf]⟩
      · by_cases hf : f ≤ 0
        · exact ⟨"fps must be greater than 0", by unfold sample_timestamps; rw [if_pos hf]⟩
        · exact ⟨"duration_s must be nonnegative", by
            unfold sample_timestamps; rw [if_neg hf, if_pos hd]⟩
  · unfold sample_timestamps
    rw [if_neg (by norm_num), if_neg (by norm_num), if_pos rfl]
  · intro d f b w l h
    unfold sample_timestamps at h
    by_cases hf : f ≤ 0
    · rw [if_pos hf] at h; exact absurd h (by simp)
    · rw [if_neg hf] at h
      by_cases hd : d < 0
      · rw [if_pos hd] at h; exact absurd h (by simp)
      · rw [if_neg hd] at h
        by_cases h0 : d = 0
        · rw [if_pos h0] at h
          obtain rfl := Except.ok.inj h
          exact ⟨by simp, by simp⟩
        · rw [if_neg h0] at h
          have hfpos : 0 < f := lt_of_le_of_ne (le_of_not_lt (fun hc => hf (le_of_lt hc)))
            (fun he => hf (le_of_eq he.symm))
          obtain rfl := Except.ok.inj h
          obtain ⟨h1, h2⟩ := dedupe_sorted_spec _
          refine ⟨h1, fun x hx => ?_⟩
          obtain ⟨v, hv, he⟩ := h2 x hx
          have hvrange : 0 ≤ v ∧ v ≤ d := by
            rcases List.mem_append.mp hv with hg | hb
            · obtain ⟨k, hk, hke⟩ := List.mem_map.mp hg
              have hkle : (k : ℤ) ≤ ⌊d * f⌋ := by
                have hk2 := List.mem_range.mp hk
                have hfl0 : 0 ≤ ⌊d * f⌋ := Int.floor_nonneg.mpr
                  (mul_nonneg (le_of_not_lt hd) (le_of_lt hfpos))
                omega
              have hkq : (k : ℚ) ≤ d * f := by
                calc (k : ℚ) ≤ ((⌊d * f⌋ : ℤ) : ℚ) := by exact_mod_cast hkle
                  _ ≤ d * f := Int.floor_le _
              constructor
              · rw [← hke]; positivity
              · rw [← hke]
                rw [show (k : ℚ) * (1 / f) = (k : ℚ) / f by ring]
                rw [div_le_iff₀ hfpos]
                linarith
            · by_cases hbe : b.isEmpty
              · rw [if_pos hbe] at hb; simp at hb
              · rw [if_neg hbe] at hb
                obtain ⟨fl, hfl, hvfl⟩ := List.mem_join.mp hb
                obtain ⟨bb, _, hbbe⟩ := List.mem_map.mp hfl
                rw [← hbbe] at hvfl
                have := (List.mem_filter.mp hvfl).2
                simp at this
                exact this
          rw [he]
          exact ⟨pyRoundTo_nonneg3 hvrange.1,
            le_trans (pyRoundTo_le_add v) (by linarith [hvrange.2])⟩

/-- C8 counterexample: rounding to three decimals can push a sample above
`duration_s`.  For `duration_s = 0.0006`, `fps = 1` and a scene boundary at
`0.0006`, the result is `[0.0, 0.001]` and `0.001 > 0.0006`, refuting
"every element lies in `[0, duration_s]`". -/
theorem sample_timestamps_bound_fails :
    sample_timestamps (3/5000) 1 [3/5000] (1/2) = Except.ok [0, 1/1000] ∧
    ¬ ((1/1000 : ℚ) ≤ 3/5000) := by
  constructor
  · unfold sample_timestamps
    rw [if_neg (by norm_num), if_neg (by norm_num), if_neg (by norm_num)]
    have hfl : ⌊(3/5000 : ℚ) * 1⌋ = 0 := by
      norm_num [Int.floor_eq_iff]
    rw [hfl]
    rw [show Int.toNat 0 + 1 = 1 by decide]
    rw [show List.range 1 = [0] by decide]
    have hgrid : List.map (fun k : ℕ => (k : ℚ) * (1/1)) [0] = [0] := by norm_num
    rw [hgrid]
    rw [if_neg (by simp)]
    simp only [List.map_cons, List.map_nil]
    have hfilter : List.filter (fun ts => decide (0 ≤ ts ∧ ts ≤ (3/5000 : ℚ)))
        [(3/5000 : ℚ) + -(1/2), 3/5000 + -(1/2)/2, 3/5000 + 0, 3/5000 + 1/2/2,
          3/5000 + 1/2] = [(3/5000 : ℚ) + 0] := by
      simp only [List.filter_cons, List.filter_nil, decide_eq_true_eq]
      norm_num
    rw [hfilter]
    rw [show ([[(3/5000 : ℚ) + 0]] : List (List ℚ)).join = [(3/5000 : ℚ) + 0] by simp]
    rw [show ((3/5000 : ℚ) + 0) = 3/5000 by norm_num]
    show Except.ok (dedupe_sorted ([0] ++ [3/5000]) 3) = Except.ok [0, 1/1000]
    rw [show (([0] ++ [3/5000] : List ℚ)) = [0, 3/5000] by simp]
    have hsort : List.insertionSort (fun a b : ℚ => a ≤ b) [0, 3/5000] =
        [0, 3/5000] := by norm_num [List.insertionSort, List.orderedInsert]
    have h0 : pyRoundTo (0:ℚ) 3 = 0 := by exact_mod_cast pyRoundTo_intCast 0 3
    have h1 : pyRoundTo (3/5000 : ℚ) 3 = 1/1000 := by
      unfold pyRoundTo pyRound
      rw [show (3/5000 : ℚ) * 10^3 = 3/5 by norm_num]
      rw [show ⌊(3/5 : ℚ)⌋ = 0 by norm_num [Int.floor_eq_iff]]
      norm_num
    unfold dedupe_sorted
    rw [hsort]
    simp only [List.foldl_cons, List.foldl_nil, h0, h1]
    norm_num
  · norm_num

/-- Witness for `sample_timestamps_spec`. -/
theorem sample_timestamps_spec_witness :
    (([0, 1, 2, 3] : List ℚ).Pairwise (fun a b : ℚ => a < b) ∧
      ∀ x ∈ ([0, 1, 2, 3] : List ℚ), 0 ≤ x ∧ x ≤ 3 + 1/2000) ∧
    (∃ msg, sample_timestamps 0 (-1) [] (1/2) = Except.error msg) :=
  ⟨sample_timestamps_spec.2.2.2 3 1 [] (1/2) [0, 1, 2, 3]
    sample_timestamps_spec.2.2.1,
   (sample_timestamps_spec.1 0 (-1) [] (1/2)).mpr (Or.inl (by norm_num))⟩

/-! ## NLE export generators (`exports/schemas.py`, `exports/edl.py`,
`exports/fcpxml.py`). -/

/-- `ExportMarker` from `exports/schemas.py`. -/
structure ExportMarker where
  name : String
  time_ms : ℤ
  note : String
deriving DecidableEq

/-- `ExportClip` from `exports/schemas.py` (plain field data; the validator
is modelled by `ExportClip.validate` below). -/
structure ExportClip where
  clip_name : String
  video_id : String
  media_path : String
  media_url : String
  start_ms : ℤ
  end_ms : ℤ
  scene_id : String
  markers : List ExportMarker
deriving DecidableEq

/-- `ExportClip.duration_ms` property. -/
def ExportClip.duration_ms (c : ExportClip) : ℤ := c.end_ms - c.start_ms

/-- `xml.sax.saxutils.escape`: replace `&` first, then `<` and `>`. -/
def escape (s : String) : String :=
  ((s.replace "&" "&amp;").replace "<" "&lt;").replace ">" "&gt;"

/-- `f"{n:0wd}"`: zero-pad the decimal representation to width `w` (a sign
counts toward the width, as in Python). -/
def pyZPad (n : ℤ) (w : ℕ) : String :=
  if n < 0 then
    "-" ++ (String.mk (List.replicate (w - 1 - (toString n.natAbs).length) '0')) ++
      toString n.natAbs
  else
    (String.mk (List.replicate (w - (toString n.natAbs).length) '0')) ++
      toString n.natAbs

/-- `f"{s:<ws}"`: left-justify a string in a field of width `w`. -/
def ljust (s : String) (w : ℕ) : String :=
  s ++ String.mk (List.replicate (w - s.length) ' ')

/-- The frames numerator of `_rational_time`: `round(ms * frame_rate / 1000.0)`. -/
def rational_time_frames (ms : ℤ) (frame_rate : ℚ) : ℤ :=
  pyRound ((ms : ℚ) * frame_rate / 1000)

/-- `fps_int = round(frame_rate)`, used as the denominator of every
rational time value and in the format name. -/
def fps_round (frame_rate : ℚ) : ℤ := pyRound frame_rate

/-- `_rational_time` from `exports/fcpxml.py`: the string
`f"{frames}/{fps_int}s"`. -/
def rational_time (ms : ℤ) (frame_rate : ℚ) : String :=
  toString (rational_time_frames ms frame_rate) ++ "/" ++
    toString (fps_round frame_rate) ++ "s"

/-- Remove trailing occurrences of `c` (Python `str.rstrip(c)`). -/
def dropTrailing (c : Char) (s : String) : String :=
  ⟨(s.data.reverse.dropWhile (fun x => x == c)).reverse⟩

/-- `f"{frame_rate:.3f}".rstrip("0").rstrip(".")`: format to three decimals
(Python rounds half to even) and strip trailing zeros, then a trailing
dot. -/
def format_key (frame_rate : ℚ) : String :=
  dropTrailing '.' (dropTrailing '0'
    ((if pyRound (frame_rate * 1000) < 0 then "-" else "") ++
      toString ((pyRound (frame_rate * 1000)).natAbs / 1000) ++ "." ++
      pad3 ((pyRound (frame_rate * 1000)).natAbs % 1000)))

/-- `_FRAME_DURATION_MAP` from `exports/fcpxml.py`. -/
def FRAME_DURATION_MAP : List (ℤ × String) :=
  [(24, "1/24s"), (25, "1/25s"), (30, "1/30s"), (50, "1/50s"), (60, "1/60s")]

/-- `_FRAME_DURATION_MAP.get(fps_int, f"1/{fps_int}s")`. -/
def frame_duration_lookup (n : ℤ) : String :=
  match FRAME_DURATION_MAP.find? (fun p => decide (p.1 = n)) with
  | some p => p.2
  | none => "1/" ++ toString n ++ "s"

/-- `_resolve_frame_params` from `exports/fcpxml.py`: NTSC keys get exact
fractional frame durations and the DF/NDF flag; everything else gets
`1/{round(fps)}s` and NDF. -/
def resolve_frame_params (frame_rate : ℚ) : String × String :=
  if format_key frame_rate = "23.976" then ("1001/24000s", "NDF")
  else if format_key frame_rate = "29.97" then ("1001/30000s", "DF")
  else if format_key frame_rate = "59.94" then ("1001/60000s", "DF")
  else (frame_duration_lookup (fps_round frame_rate), "NDF")

/-- The drop-frame test of `exports/edl.py`:
`abs(frame_rate - 29.97) < 0.01 or abs(frame_rate - 59.94) < 0.01`. -/
def is_drop_frame (frame_rate : ℚ) : Prop :=
  |frame_rate - 2997/100| < 1/100 ∨ |frame_rate - 5994/100| < 1/100

instance (r : ℚ) : Decidable (is_drop_frame r) := by
  unfold is_drop_frame
  infer_instance

/-- The `HH:MM:SS:FF` string computed by `_ms_to_timecode` for a non-zero
`fps` (`//` is floor division `fdiv`, `%` is `fmod`, as in Python). -/
def timecode_str (ms : ℤ) (fps : ℤ) : String :=
  pyZPad ((((pyRound ((ms : ℚ) * (fps : ℚ) / 1000)).fdiv fps).fdiv 60).fdiv 60) 2 ++ ":" ++
  pyZPad ((((pyRound ((ms : ℚ) * (fps : ℚ) / 1000)).fdiv fps).fdiv 60).fmod 60) 2 ++ ":" ++
  pyZPad (((pyRound ((ms : ℚ) * (fps : ℚ) / 1000)).fdiv fps).fmod 60) 2 ++ ":" ++
  pyZPad ((pyRound ((ms : ℚ) * (fps : ℚ) / 1000)).fmod fps) 2

/-- `_ms_to_timecode` from `exports/edl.py` (raises `ZeroDivisionError`
when `fps == 0`, i.e. for frame rates that round to zero). -/
def ms_to_timecode (ms : ℤ) (fps : ℤ) : Except String String :=
  if fps = 0 then Except.error "integer division or modulo by zero"
  else Except.ok (timecode_str ms fps)

/-- One iteration of the event loop of `generate_edl`, threading
`(event_number, record_offset_ms, lines)`. -/
def edl_event_step (frame_rate : ℚ) (acc : ℤ × ℤ × List String)
    (clip : ExportClip) : Except String (ℤ × ℤ × List String) := do
  let src_in ← ms_to_timecode clip.start_ms (pyRound frame_rate)
  let src_out ← ms_to_timecode clip.end_ms (pyRound frame_rate)
  let rec_in ← ms_to_timecode acc.2.1 (pyRound frame_rate)
  let rec_out ← ms_to_timecode (acc.2.1 + clip.duration_ms) (pyRound frame_rate)
  pure (acc.1 + 1, acc.2.1 + clip.duration_ms,
    acc.2.2 ++ [pyZPad acc.1 3 ++ "  " ++ ljust "AX" 8 ++ " " ++ ljust "V" 5 ++
        " C        " ++ src_in ++ " " ++ src_out ++ " " ++ rec_in ++ " " ++ rec_out,
      "* FROM CLIP NAME:  " ++ clip.clip_name])

/-- The list of lines of `generate_edl` from `exports/edl.py` (the final
document joins them with newlines).  The TITLE and FCM lines precede the
events, and a trailing empty line follows them; a `ZeroDivisionError`
inside the loop aborts the whole call, as in Python. -/
def generate_edl_lines (clips : List ExportClip) (title : String)
    (frame_rate : ℚ) : Except String (List String) :=
  if clips = [] then Except.error "clips must not be empty"
  else do
    let body ← clips.foldlM (edl_event_step frame_rate)
      ((1 : ℤ), (0 : ℤ), ([] : List String))
    pure (["TITLE: " ++ title,
        if is_drop_frame frame_rate then "FCM: DROP FRAME" else "FCM: NON-DROP FRAME",
        ""] ++ body.2.2 ++ [""])

/-- `generate_edl` from `exports/edl.py`. -/
def generate_edl (clips : List ExportClip) (title : String) (frame_rate : ℚ) :
    Except String String :=
  (generate_edl_lines clips title frame_rate).map (String.intercalate "\n")

/-- The `format` resource element of `generate_fcpxml`. -/
def fcpxml_format_line (r : ℚ) : String :=
  "        <format id=\"r0\" name=\"FFVideoFormat1920x1080p" ++
    toString (fps_round r) ++
    "\" width=\"1920\" height=\"1080\" frameDuration=\"" ++
    (resolve_frame_params r).1 ++ "\"/>"

/-- One `asset` resource element of `generate_fcpxml`. -/
def fcpxml_asset_line (i : ℕ) (clip : ExportClip) (r : ℚ) : String :=
  "        <asset id=\"r" ++ toString (i + 1) ++ "\" name=\"" ++
    escape clip.clip_name ++
    "\" hasVideo=\"1\" hasAudio=\"1\" format=\"r0\" duration=\"" ++
    rational_time clip.duration_ms r ++
    "\" start=\"0/1s\" audioSources=\"1\" audioChannels=\"2\">\n" ++
    "            <media-rep kind=\"original-media\" src=\"" ++
    escape (if clip.media_url ≠ "" then clip.media_url
      else "file://" ++ clip.media_path) ++ "\"/>\n        </asset>"

/-- One `asset-clip` spine element of `generate_fcpxml`; `offset_ms` is the
cumulative duration of the preceding clips. -/
def fcpxml_spine_line (i : ℕ) (offset_ms : ℤ) (clip : ExportClip) (r : ℚ) : String :=
  "                        <asset-clip ref=\"r" ++ toString (i + 1) ++
    "\" name=\"" ++ escape clip.clip_name ++ "\" offset=\"" ++
    rational_time offset_ms r ++ "\" start=\"" ++
    rational_time clip.start_ms r ++ "\" duration=\"" ++
    rational_time clip.duration_ms r ++
    "\" format=\"r0\" tcFormat=\"" ++ (resolve_frame_params r).2 ++
    "\" enabled=\"1\"/>"

/-- `generate_fcpxml` from `exports/fcpxml.py`.  The loop accumulation of
`timeline_offset_ms` is expressed as the prefix sums of the clip
durations. -/
def generate_fcpxml (clips : List ExportClip) (project_name : String)
    (frame_rate : ℚ) : Except String String :=
  if clips = [] then Except.error "clips must not be empty"
  else Except.ok (
    "<?xml version=\"1.0\" encoding=\"UTF-8\"?>\n<!DOCTYPE fcpxml>\n" ++
    "<fcpxml version=\"1.9\">\n    <resources>\n" ++
    String.intercalate "\n" (fcpxml_format_line frame_rate ::
      clips.enum.map (fun p => fcpxml_asset_line p.1 p.2 frame_rate)) ++
    "\n    </resources>\n    <library>\n        <event name=\"" ++
    escape project_name ++ "\">\n            <project name=\"" ++
    escape project_name ++
    "\">\n                <sequence tcStart=\"0/1s\" tcFormat=\"" ++
    (resolve_frame_params frame_rate).2 ++ "\" duration=\"" ++
    rational_time ((clips.map ExportClip.duration_ms).sum) frame_rate ++
    "\" format=\"r0\">\n                    <spine>\n" ++
    String.intercalate "\n" (clips.enum.map (fun p =>
      fcpxml_spine_line p.1 (((clips.take p.1).map ExportClip.duration_ms).sum)
        p.2 frame_rate)) ++
    "\n                    </spine>\n                </sequence>\n" ++
    "            </project>\n        </event>\n    </library>\n</fcpxml>\n")

/-- All rational time values `generate_fcpxml` writes for asset durations,
asset-clip offsets/starts/durations, and the sequence duration — exactly
the `_rational_time` call sites of the generator above. -/
def fcpxml_time_values (clips : List ExportClip) (r : ℚ) : List String :=
  clips.map (fun c => rational_time c.duration_ms r) ++
  clips.enum.map (fun p =>
    rational_time (((clips.take p.1).map ExportClip.duration_ms).sum) r) ++
  clips.map (fun c => rational_time c.start_ms r) ++
  clips.map (fun c => rational_time c.duration_ms r) ++
  [rational_time ((clips.map ExportClip.duration_ms).sum) r]

theorem pyRound_df1 {r : ℚ} (h : |r - 2997/100| < 1/100) : pyRound r = 30 := by
  rw [abs_lt] at h
  have hf : ⌊r⌋ = 29 := by
    rw [Int.floor_eq_iff]
    constructor <;> push_cast <;> linarith
  unfold pyRound
  rw [hf, if_neg (by push_cast; linarith), if_pos (by push_cast; linarith)]
  norm_num

theorem pyRound_df2 {r : ℚ} (h : |r - 5994/100| < 1/100) : pyRound r = 60 := by
  rw [abs_lt] at h
  have hf : ⌊r⌋ = 59 := by
    rw [Int.floor_eq_iff]
    constructor <;> push_cast <;> linarith
  unfold pyRound
  rw [hf, if_neg (by push_cast; linarith), if_pos (by push_cast; linarith)]
  norm_num

theorem edl_event_step_ok {r : ℚ} (h : pyRound r ≠ 0) (acc : ℤ × ℤ × List String)
    (clip : ExportClip) :
    edl_event_step r acc clip = Except.ok (acc.1 + 1, acc.2.1 + clip.duration_ms,
      acc.2.2 ++ [pyZPad acc.1 3 ++ "  " ++ ljust "AX" 8 ++ " " ++ ljust "V" 5 ++
          " C        " ++ timecode_str clip.start_ms (pyRound r) ++ " " ++
          timecode_str clip.end_ms (pyRound r) ++ " " ++
          timecode_str acc.2.1 (pyRound r) ++ " " ++
          timecode_str (acc.2.1 + clip.duration_ms) (pyRound r),
        "* FROM CLIP NAME:  " ++ clip.clip_name]) := by
  unfold edl_event_step ms_to_timecode
  simp only [if_neg h]
  rfl

theorem edl_fold_ok {r : ℚ} (h : pyRound r ≠ 0) :
    ∀ (clips : List ExportClip) (acc : ℤ × ℤ × List String),
      ∃ res, clips.foldlM (edl_event_step r) acc = Except.ok res := by
  intro clips
  induction clips with
  | nil => intro acc; exact ⟨acc, rfl⟩
  | cons c rest ih =>
    intro acc
    rw [List.foldlM_cons, edl_event_step_ok h acc c]
    exact ih _

theorem edl_fcm_emitted {clips : List ExportClip} {title : String} {r : ℚ}
    (hc : clips ≠ []) (hfps : pyRound r ≠ 0) :
    ∃ ls, generate_edl_lines clips title r = Except.ok ls ∧
      (if is_drop_frame r then "FCM: DROP FRAME" else "FCM: NON-DROP FRAME") ∈ ls := by
  unfold generate_edl_lines
  rw [if_neg hc]
  obtain ⟨res, hres⟩ := edl_fold_ok hfps clips ((1 : ℤ), (0 : ℤ), ([] : List String))
  refine ⟨["TITLE: " ++ title,
      if is_drop_frame r then "FCM: DROP FRAME" else "FCM: NON-DROP FRAME",
      ""] ++ res.2.2 ++ [""], ?_, ?_⟩
  · show (clips.foldlM (edl_event_step r) ((1 : ℤ), (0 : ℤ), ([] : List String))).bind _ =
      Except.ok _
    rw [hres]
    rfl
  · simp

/-- C3 (amended): `generate_edl` flags FCM DROP FRAME exactly for frame
rates within `0.01` of `29.97` or `59.94` (and NON-DROP FRAME otherwise,
whenever the rounded fps is non-zero so the call does not raise a
`ZeroDivisionError`); `generate_fcpxml`'s `tcFormat` is `"DF"` exactly when
the frame rate FORMATTED TO THREE DECIMALS (trailing zeros stripped) equals
`"29.97"` or `"59.94"` — NOT for every rate within `0.01` of them (see the
counterexample). -/
theorem drop_frame_spec :
    (∀ clips title r, clips ≠ [] → is_drop_frame r →
      ∃ ls, generate_edl_lines clips title r = Except.ok ls ∧
        "FCM: DROP FRAME" ∈ ls) ∧
    (∀ clips title r, clips ≠ [] → ¬ is_drop_frame r → pyRound r ≠ 0 →
      ∃ ls, generate_edl_lines clips title r = Except.ok ls ∧
        "FCM: NON-DROP FRAME" ∈ ls) ∧
    (∀ r, is_drop_frame r ↔
      (|r - 2997/100| < 1/100 ∨ |r - 5994/100| < 1/100)) ∧
    (∀ r, (resolve_frame_params r).2 = "DF" ↔
      (format_key r = "29.97" ∨ format_key r = "59.94")) := by
  refine ⟨?_, ?_, fun r => Iff.rfl, ?_⟩
  · intro clips title r hc hdf
    have hfps : pyRound r ≠ 0 := by
      rcases hdf with h1 | h1
      · rw [pyRound_df1 h1]; decide
      · rw [pyRound_df2 h1]; decide
    obtain ⟨ls, hls, hmem⟩ := edl_fcm_emitted hc hfps
    rw [if_pos hdf] at hmem
    exact ⟨ls, hls, hmem⟩
  · intro clips title r hc hdf hfps
    obtain ⟨ls, hls, hmem⟩ := edl_fcm_emitted hc hfps
    rw [if_neg hdf] at hmem
    exact ⟨ls, hls, hmem⟩
  · intro r
    unfold resolve_frame_params
    split_ifs with h1 h2 h3
    · rw [h1]
      decide
    · rw [h2]
      decide
    · rw [h3]
      decide
    · constructor
      · intro h
        have h2d : ("NDF" : String) = "DF" := h
        exact absurd h2d (by decide)
      · intro h
        rcases h with h | h
        · exact absurd h h2
        · exact absurd h h3

/-- A one-second clip used in the export instances. -/
def exClip : ExportClip := ⟨"clip", "vid", "", "", 0, 1000, "", []⟩

theorem is_drop_frame_29975 : is_drop_frame (1199/40) := by
  unfold is_drop_frame
  left
  rw [show (1199/40 : ℚ) - 2997/100 = 1/200 by norm_num]
  rw [abs_of_pos (by norm_num)]
  norm_num

theorem format_key_29975 : format_key (1199/40) = "29.975" := by
  unfold format_key
  rw [show (1199/40 : ℚ) * 1000 = ((29975 : ℤ) : ℚ) by norm_num, pyRound_intCast]
  decide

/-- C3 counterexample: the frame rate `29.975` is within `0.01` of `29.97`,
so `generate_edl` emits `FCM: DROP FRAME`, yet `generate_fcpxml`'s
`tcFormat` is `"NDF"` because `"29.975"` is not an NTSC map key — refuting
"generate_fcpxml emits DF for every rate within 0.01 of 29.97/59.94". -/
theorem drop_frame_mismatch :
    is_drop_frame (1199/40) ∧
    (resolve_frame_params (1199/40)).2 = "NDF" ∧
    (∃ ls, generate_edl_lines [exClip] "t" (1199/40) = Except.ok ls ∧
      "FCM: DROP FRAME" ∈ ls) := by
  refine ⟨is_drop_frame_29975, ?_, ?_⟩
  · unfold resolve_frame_params
    rw [format_key_29975]
    rw [if_neg (by decide), if_neg (by decide), if_neg (by decide)]
  · have hfps : pyRound ((1199 : ℚ)/40) = 30 := pyRound_df1 (by
      rw [show (1199/40 : ℚ) - 2997/100 = 1/200 by norm_num]
      rw [abs_of_pos (by norm_num)]
      norm_num)
    obtain ⟨ls, hls, hmem⟩ := @edl_fcm_emitted [exClip] "t" (1199/40)
      (by simp) (by rw [hfps]; decide)
    rw [if_pos is_drop_frame_29975] at hmem
    exact ⟨ls, hls, hmem⟩

theorem pyRound_2997 : pyRound ((2997 : ℚ)/100) = 30 :=
  pyRound_df1 (by rw [show (2997/100 : ℚ) - 2997/100 = 0 by ring]; simp)

/-- Witness for `drop_frame_spec` at concrete inputs. -/
theorem drop_frame_spec_witness :
    (∃ ls, generate_edl_lines [exClip] "t" (2997/100) = Except.ok ls ∧
      "FCM: DROP FRAME" ∈ ls) ∧
    (∃ ls, generate_edl_lines [exClip] "t" 25 = Except.ok ls ∧
      "FCM: NON-DROP FRAME" ∈ ls) := by
  constructor
  · exact drop_frame_spec.1 [exClip] "t" (2997/100) (by simp)
      (Or.inl (by rw [show (2997/100 : ℚ) - 2997/100 = 0 by ring]; simp))
  · refine drop_frame_spec.2.1 [exClip] "t" 25 (by simp) ?_ ?_
    · intro h
      rcases h with h | h
      · rw [abs_lt] at h
        linarith [h.1, h.2]
      · rw [abs_lt] at h
        linarith [h.1, h.2]
    · rw [show (25 : ℚ) = ((25 : ℤ) : ℚ) by norm_num, pyRound_intCast]
      decide

/-- C2 (amended): every rational time value `generate_fcpxml` writes for
asset durations, asset-clip offsets/starts/durations and the sequence
duration has the form `{round(ms*fps/1000)}/{round(fps)}s` — the
denominator is the ROUNDED integer fps at every frame rate, including
NTSC ones (see the counterexample); the exact NTSC fractional rationals
appear only as the format element's `frameDuration`
(`1001/24000s`/`1001/30000s`/`1001/60000s`, with the DF flag for
29.97/59.94). -/
theorem fcpxml_rational_time_spec :
    (∀ ms r, rational_time ms r =
      toString (pyRound ((ms : ℚ) * r / 1000)) ++ "/" ++
        toString (pyRound r) ++ "s") ∧
    (∀ clips r t, t ∈ fcpxml_time_values clips r →
      ∃ ms, t = rational_time ms r) ∧
    resolve_frame_params (2997/100) = ("1001/30000s", "DF") ∧
    resolve_frame_params (5994/100) = ("1001/60000s", "DF") ∧
    resolve_frame_params (23976/1000) = ("1001/24000s", "NDF") := by
  refine ⟨fun ms r => rfl, ?_, ?_, ?_, ?_⟩
  · intro clips r t ht
    unfold fcpxml_time_values at ht
    rcases List.mem_append.mp ht with h | h
    · rcases List.mem_append.mp h with h | h
      · rcases List.mem_append.mp h with h | h
        · rcases List.mem_append.mp h with h | h
          · obtain ⟨c, _, he⟩ := List.mem_map.mp h
            exact ⟨c.duration_ms, he.symm⟩
          · obtain ⟨p, _, he⟩ := List.mem_map.mp h
            exact ⟨_, he.symm⟩
        · obtain ⟨c, _, he⟩ := List.mem_map.mp h
          exact ⟨c.start_ms, he.symm⟩
      · obtain ⟨c, _, he⟩ := List.mem_map.mp h
        exact ⟨c.duration_ms, he.symm⟩
    · simp at h
      exact ⟨_, h⟩
  · have hk : format_key (2997/100) = "29.97" := by
      unfold format_key
      rw [show (2997/100 : ℚ) * 1000 = ((29970 : ℤ) : ℚ) by norm_num, pyRound_intCast]
      decide
    unfold resolve_frame_params
    rw [hk]
    rw [if_neg (by decide), if_pos rfl]
  · have hk : format_key (5994/100) = "59.94" := by
      unfold format_key
      rw [show (5994/100 : ℚ) * 1000 = ((59940 : ℤ) : ℚ) by norm_num, pyRound_intCast]
      decide
    unfold resolve_frame_params
    rw [hk]
    rw [if_neg (by decide), if_neg (by decide), if_pos rfl]
  · have hk : format_key (23976/1000) = "23.976" := by
      unfold format_key
      rw [show (23976/1000 : ℚ) * 1000 = ((23976 : ℤ) : ℚ) by norm_num, pyRound_intCast]
      decide
    unfold resolve_frame_params
    rw [hk]
    rw [if_pos rfl]

theorem rational_time_1000_2997 : rational_time 1000 (2997/100) = "30/30s" := by
  unfold rational_time rational_time_frames fps_round
  rw [show (1000 : ℤ) * (2997/100 : ℚ) / 1000 = 2997/100 by push_cast; ring]
  rw [pyRound_2997]
  decide

theorem mem_fcpxml_time_values_30 :
    ("30/30s" : String) ∈ fcpxml_time_values [exClip] (2997/100) := by
  unfold fcpxml_time_values
  apply List.mem_append.mpr
  left
  apply List.mem_append.mpr
  left
  apply List.mem_append.mpr
  left
  apply List.mem_append.mpr
  left
  rw [show [exClip].map (fun c => rational_time c.duration_ms (2997/100)) =
    [rational_time 1000 (2997/100)] from rfl]
  rw [rational_time_1000_2997]
  exact List.mem_singleton.mpr rfl

/-- C2 counterexample: at the NTSC rate 29.97 the asset duration written by
`generate_fcpxml` for a one-second clip is `"30/30s"` — numerator and
denominator use the ROUNDED fps 30, not the exact NTSC rational with
denominator 30000 claimed for these time values. -/
theorem fcpxml_ntsc_denominator_fails :
    rational_time 1000 (2997/100) = "30/30s" ∧
    ("30/30s" : String) ∈ fcpxml_time_values [exClip] (2997/100) ∧
    fps_round (2997/100) = 30 ∧ ((30 : ℤ) ≠ 30000) :=
  ⟨rational_time_1000_2997, mem_fcpxml_time_values_30,
   pyRound_2997, by decide⟩

/-- Witness for `fcpxml_rational_time_spec` at a concrete time value. -/
theorem fcpxml_rational_time_spec_witness :
    ∃ ms, ("30/30s" : String) = rational_time ms (2997/100) :=
  fcpxml_rational_time_spec.2.1 [exClip] (2997/100) "30/30s"
    mem_fcpxml_time_values_30

/-! ## Remaining schema entities and construction-time validation
(`scenes/schemas.py`, `ocr/schemas.py`, `ingest/schemas.py`,
`speech/schemas.py`).  Pydantic's `model_dump()` on these models is the
identity on the plain field values, so the round-trip law
`restore(serialize(x)) == x` becomes: re-validating an already validated
value succeeds and returns it unchanged. -/

/-- `OCRPipelineResult` from `ocr/schemas.py` (`meta : dict[str, Any]` is
modelled as a string-keyed association list of plain values). -/
structure OCRPipelineResult where
  schema_version : String
  pipeline_version : String
  model_version : String
  video_id : String
  scenes : List OCRSceneResult
  total_frames_processed : ℤ
  processing_time_s : ℚ
  status : String
  error : Option String
  meta : List (String × String)
deriving DecidableEq

/-- `SceneDetectionResult` from `scenes/schemas.py`. -/
structure SceneDetectionResult where
  schema_version : String
  pipeline_version : String
  model_version : String
  video_path : String
  video_id : String
  total_duration_ms : ℤ
  scenes : List SceneDocument
  processing_time_s : ℚ
  status : String
  error : Option String
deriving DecidableEq

/-- `IngestSceneDocument` from `ingest/schemas.py` (`capture_time` is
modelled as an opaque optional timestamp). -/
structure IngestSceneDocument where
  scene_id : String
  index : ℤ
  start_ms : ℤ
  end_ms : ℤ
  keyframe_timestamp_ms : ℤ
  transcript_raw : String
  speech_segment_count : ℤ
  people_cluster_ids : List String
  keyword_tags : List String
  product_tags : List String
  product_entities : List String
  ocr_text_raw : String
  ocr_char_count : ℤ
  scene_caption : String
  source_type : String
  required_drive_nickname : Option String
  capture_time : Option ℤ
deriving DecidableEq

/-- `PipelineResult` from `speech/schemas.py` (a plain dataclass). -/
structure PipelineResult where
  video_path : String
  segments : List RankedSegment
  total_duration : ℚ
  processing_time : ℚ
  status : String
  error : Option String
deriving DecidableEq

/-- Python `re` `$` semantics: a match may end just before one trailing
newline. -/
def chompTrailingNewline (l : List Char) : List Char :=
  match l.getLast? with
  | some c => if c = '\n' then l.dropLast else l
  | none => l

/-- Matcher for the anchored patterns `^P+_scene_\d{n,}$`, where `P` is the
character class of the prefix (`.` for the scene schemas — any character
except newline — and `[^/\\\x00]` for the ingest schema) and `n` the
minimum digit count.  A match is a split: a non-empty prefix of class
characters, the literal `_scene_`, and at least `n` digits reaching the end
(`\d` modelled on its ASCII fragment). -/
def sceneIdMatch (minDigits : ℕ) (cls : Char → Bool) (s : String) : Bool :=
  (List.range (((chompTrailingNewline s.data)).length + 1)).any (fun i =>
    decide (1 ≤ i) &&
    ((chompTrailingNewline s.data).take i).all cls &&
    (((chompTrailingNewline s.data).drop i).take 7 == "_scene_".data) &&
    decide (minDigits ≤ ((chompTrailingNewline s.data).drop (i + 7)).length) &&
    ((chompTrailingNewline s.data).drop (i + 7)).all (fun c => c.isDigit))

/-- `^.+_scene_\d{3,}$` of `scenes/schemas.py`. -/
def scene_id_ok3 (s : String) : Bool :=
  sceneIdMatch 3 (fun c => !(c == '\n')) s

/-- `^.+_scene_\d+$` of `ocr/schemas.py`. -/
def scene_id_ok1 (s : String) : Bool :=
  sceneIdMatch 1 (fun c => !(c == '\n')) s

/-- `^[^/\\\x00]+_scene_\d+$` of `ingest/schemas.py`. -/
def ingest_scene_id_ok (s : String) : Bool :=
  sceneIdMatch 1 (fun c => !(c == '/') && !(c == '\\') && !(c == Char.ofNat 0)) s

/-- `".." in value`. -/
def containsDotDot : List Char → Bool
  | [] => false
  | [_] => false
  | a :: b :: rest => (a == '.' && b == '.') || containsDotDot (b :: rest)

/-- `_reject_path_traversal` from `ingest/schemas.py`: no `/`, `\`, NUL and
no `..`. -/
def path_traversal_ok (s : String) : Bool :=
  s.data.all (fun c => !(c == '/') && !(c == '\\') && !(c == Char.ofNat 0)) &&
  !(containsDotDot s.data)

/-- `SOURCE_TYPE_VALUES` from `ingest/schemas.py`. -/
def SOURCE_TYPE_VALUES : List String := ["gdrive", "removable_disk", "local"]

/-- Pydantic validates the items of a `List` field one by one and fails on
the first invalid item. -/
def exMapM {α β : Type} (f : α → Except String β) : List α → Except String (List β)
  | [] => Except.ok []
  | a :: t =>
      match f a with
      | Except.error e => Except.error e
      | Except.ok b =>
          match exMapM f t with
          | Except.error e => Except.error e
          | Except.ok bs => Except.ok (b :: bs)

/-- `SceneBoundary` validators: scene-id pattern, `end_ms ≥ start_ms`. -/
def SceneBoundary.validate (e : SceneBoundary) : Except String SceneBoundary :=
  if scene_id_ok3 e.scene_id = true ∧ e.start_ms ≤ e.end_ms then Except.ok e
  else Except.error "SceneBoundary validation failed"

/-- `SceneDocument` validator: scene-id pattern only (the class declares no
other validator). -/
def SceneDocument.validate (e : SceneDocument) : Except String SceneDocument :=
  if scene_id_ok3 e.scene_id = true then Except.ok e
  else Except.error "SceneDocument validation failed"

/-- `OCRBlock` validators: confidence in `[0,1]`, bbox of exactly four
values each in `[0,1]`. -/
def OCRBlock.validate (e : OCRBlock) : Except String OCRBlock :=
  if 0 ≤ e.confidence ∧ e.confidence ≤ 1 ∧ e.bbox.length = 4 ∧
      (∀ v ∈ e.bbox, 0 ≤ v ∧ v ≤ 1) then Except.ok e
  else Except.error "OCRBlock validation failed"

/-- `OCRFrameResult` validators: `frame_ts_ms ≥ 0`, optional
`processing_time_ms ≥ 0`, nested blocks re-validated. -/
def OCRFrameResult.validate (e : OCRFrameResult) : Except String OCRFrameResult :=
  if 0 ≤ e.frame_ts_ms ∧ (∀ p ∈ e.processing_time_ms.toList, 0 ≤ p) then
    (exMapM OCRBlock.validate e.blocks).map (fun bs => { e with blocks := bs })
  else Except.error "OCRFrameResult validation failed"

/-- The `_sync_char_count` model validator of `OCRSceneResult`. -/
def OCRSceneResult.sync (e : OCRSceneResult) : OCRSceneResult :=
  if e.ocr_text_raw ≠ "" then { e with ocr_char_count := (e.ocr_text_raw.length : ℤ) }
  else { e with ocr_char_count := 0 }

/-- `OCRSceneResult` validators: scene-id pattern, at most 50 frames,
`ocr_text_raw` at most 10000 chars, `ocr_char_count ≥ 0`, nested frames
re-validated, then `_sync_char_count`. -/
def OCRSceneResult.validate (e : OCRSceneResult) : Except String OCRSceneResult :=
  if scene_id_ok1 e.scene_id = true ∧ e.frames.length ≤ 50 ∧
      e.ocr_text_raw.length ≤ 10000 ∧ 0 ≤ e.ocr_char_count then
    (exMapM OCRFrameResult.validate e.frames).map
      (fun fs => OCRSceneResult.sync { e with frames := fs })
  else Except.error "OCRSceneResult validation failed"

/-- `OCRPipelineResult` validators: counters non-negative, nested scenes
re-validated. -/
def OCRPipelineResult.validate (e : OCRPipelineResult) :
    Except String OCRPipelineResult :=
  if 0 ≤ e.total_frames_processed ∧ 0 ≤ e.processing_time_s then
    (exMapM OCRSceneResult.validate e.scenes).map (fun ss => { e with scenes := ss })
  else Except.error "OCRPipelineResult validation failed"

/-- `SceneDetectionResult`: no field constraints of its own; nested scene
documents re-validated. -/
def SceneDetectionResult.validate (e : SceneDetectionResult) :
    Except String SceneDetectionResult :=
  (exMapM SceneDocument.validate e.scenes).map (fun ss => { e with scenes := ss })

/-- `ShortsCandidate` validators: non-empty `scene_ids`,
`end_ms ≥ start_ms`. -/
def ShortsCandidate.validate (e : ShortsCandidate) : Except String ShortsCandidate :=
  if e.scene_ids ≠ [] ∧ e.start_ms ≤ e.end_ms then Except.ok e
  else Except.error "ShortsCandidate validation failed"

/-- `IngestSceneDocument` validators: path-traversal-free scene id matching
the ingest pattern, non-negative counters, bounded text fields, a known
`source_type`, `end_ms ≥ start_ms`. -/
def IngestSceneDocument.validate (e : IngestSceneDocument) :
    Except String IngestSceneDocument :=
  if path_traversal_ok e.scene_id = true ∧ ingest_scene_id_ok e.scene_id = true ∧
      0 ≤ e.index ∧ 0 ≤ e.start_ms ∧ 0 ≤ e.end_ms ∧ 0 ≤ e.keyframe_timestamp_ms ∧
      e.transcript_raw.length ≤ 50000 ∧ 0 ≤ e.speech_segment_count ∧
      e.ocr_text_raw.length ≤ 10000 ∧ 0 ≤ e.ocr_char_count ∧
      e.scene_caption.length ≤ 5000 ∧ e.source_type ∈ SOURCE_TYPE_VALUES ∧
      e.start_ms ≤ e.end_ms then Except.ok e
  else Except.error "IngestSceneDocument validation failed"

/-- `ExportClip` validator: `end_ms ≥ start_ms`. -/
def ExportClip.validate (e : ExportClip) : Except String ExportClip :=
  if e.start_ms ≤ e.end_ms then Except.ok e
  else Except.error "ExportClip validation failed"

/-- `PipelineResult` is a plain dataclass: no validation at all, so
reconstruction from `to_dict()` output is the identity. -/
def PipelineResult.validate (e : PipelineResult) : Except String PipelineResult :=
  Except.ok e

theorem exMapM_id {α : Type} (f : α → Except String α)
    (hf : ∀ a b, f a = Except.ok b → b = a) :
    ∀ l l', exMapM f l = Except.ok l' → l' = l := by
  intro l
  induction l with
  | nil =>
      intro l' h
      unfold exMapM at h
      exact (Except.ok.inj h).symm
  | cons a t ih =>
      intro l' h
      unfold exMapM at h
      cases hfa : f a with
      | error e => rw [hfa] at h; exact absurd h (by simp)
      | ok b =>
          rw [hfa] at h
          cases hmt : exMapM f t with
          | error e => rw [hmt] at h; exact absurd h (by simp)
          | ok bs =>
              rw [hmt] at h
              obtain rfl := (Except.ok.inj h).symm
              rw [hf a b hfa, ih bs hmt]

theorem exMapM_roundtrip {α : Type} (f : α → Except String α)
    (hf : ∀ a b, f a = Except.ok b → f b = Except.ok b) :
    ∀ l l', exMapM f l = Except.ok l' → exMapM f l' = Except.ok l' := by
  intro l
  induction l with
  | nil =>
      intro l' h
      unfold exMapM at h
      obtain rfl := (Except.ok.inj h).symm
      rfl
  | cons a t ih =>
      intro l' h
      unfold exMapM at h
      cases hfa : f a with
      | error e => rw [hfa] at h; exact absurd h (by simp)
      | ok b =>
          rw [hfa] at h
          cases hmt : exMapM f t with
          | error e => rw [hmt] at h; exact absurd h (by simp)
          | ok bs =>
              rw [hmt] at h
              obtain rfl := (Except.ok.inj h).symm
              unfold exMapM
              rw [hf a b hfa, ih bs hmt]

theorem SceneBoundary_validate_id (raw x : SceneBoundary)
    (h : SceneBoundary.validate raw = Except.ok x) : x = raw := by
  unfold SceneBoundary.validate at h
  split at h
  · exact (Except.ok.inj h).symm
  · exact absurd h (by simp)

theorem SceneDocument_validate_id (raw x : SceneDocument)
    (h : SceneDocument.validate raw = Except.ok x) : x = raw := by
  unfold SceneDocument.validate at h
  split at h
  · exact (Except.ok.inj h).symm
  · exact absurd h (by simp)

theorem OCRBlock_validate_id (raw x : OCRBlock)
    (h : OCRBlock.validate raw = Except.ok x) : x = raw := by
  unfold OCRBlock.validate at h
  split at h
  · exact (Except.ok.inj h).symm
  · exact absurd h (by simp)

theorem ShortsCandidate_validate_id (raw x : ShortsCandidate)
    (h : ShortsCandidate.validate raw = Except.ok x) : x = raw := by
  unfold ShortsCandidate.validate at h
  split at h
  · exact (Except.ok.inj h).symm
  · exact absurd h (by simp)

theorem IngestSceneDocument_validate_id (raw x : IngestSceneDocument)
    (h : IngestSceneDocument.validate raw = Except.ok x) : x = raw := by
  unfold IngestSceneDocument.validate at h
  split at h
  · exact (Except.ok.inj h).symm
  · exact absurd h (by simp)

theorem ExportClip_validate_id (raw x : ExportClip)
    (h : ExportClip.validate raw = Except.ok x) : x = raw := by
  unfold ExportClip.validate at h
  split at h
  · exact (Except.ok.inj h).symm
  · exact absurd h (by simp)

theorem OCRFrameResult_validate_id (raw x : OCRFrameResult)
    (h : OCRFrameResult.validate raw = Except.ok x) : x = raw := by
  unfold OCRFrameResult.validate at h
  split at h
  · cases hmb : exMapM OCRBlock.validate raw.blocks with
    | error e => rw [hmb] at h; exact absurd h (by simp [Except.map])
    | ok bs =>
        rw [hmb] at h
        simp only [Except.map] at h
        obtain rfl := (Except.ok.inj h).symm
        obtain rfl : bs = raw.blocks := exMapM_id _ OCRBlock_validate_id _ _ hmb
        rfl
  · exact absurd h (by simp)

theorem SceneDetectionResult_validate_id (raw x : SceneDetectionResult)
    (h : SceneDetectionResult.validate raw = Except.ok x) : x = raw := by
  unfold SceneDetectionResult.validate at h
  cases hms : exMapM SceneDocument.validate raw.scenes with
  | error e => rw [hms] at h; exact absurd h (by simp [Except.map])
  | ok ss =>
      rw [hms] at h
      simp only [Except.map] at h
      obtain rfl := (Except.ok.inj h).symm
      obtain rfl : ss = raw.scenes := exMapM_id _ SceneDocument_validate_id _ _ hms
      rfl

theorem sync_scene_id (e : OCRSceneResult) :
    (OCRSceneResult.sync e).scene_id = e.scene_id := by
  unfold OCRSceneResult.sync; split <;> rfl

theorem sync_frames (e : OCRSceneResult) :
    (OCRSceneResult.sync e).frames = e.frames := by
  unfold OCRSceneResult.sync; split <;> rfl

theorem sync_text (e : OCRSceneResult) :
    (OCRSceneResult.sync e).ocr_text_raw = e.ocr_text_raw := by
  unfold OCRSceneResult.sync; split <;> rfl

theorem sync_count_nonneg (e : OCRSceneResult) :
    0 ≤ (OCRSceneResult.sync e).ocr_char_count := by
  unfold OCRSceneResult.sync
  split
  · exact Int.natCast_nonneg _
  · exact le_refl 0

theorem sync_idem (e : OCRSceneResult) :
    OCRSceneResult.sync (OCRSceneResult.sync e) = OCRSceneResult.sync e := by
  by_cases h : e.ocr_text_raw = ""
  · simp only [OCRSceneResult.sync, h, ne_eq, not_true_eq_false, if_false]
  · simp only [OCRSceneResult.sync, ne_eq, h, not_false_eq_true, if_true]

theorem OCRSceneResult_validate_rt (raw x : OCRSceneResult)
    (h : OCRSceneResult.validate raw = Except.ok x) :
    OCRSceneResult.validate x = Except.ok x := by
  unfold OCRSceneResult.validate at h ⊢
  split at h
  case isTrue hc =>
    cases hmf : exMapM OCRFrameResult.validate raw.frames with
    | error e => rw [hmf] at h; exact absurd h (by simp [Except.map])
    | ok fs =>
        rw [hmf] at h
        simp only [Except.map] at h
        obtain rfl := (Except.ok.inj h).symm
        obtain rfl : fs = raw.frames := exMapM_id _ OCRFrameResult_validate_id _ _ hmf
        have key : OCRSceneResult.sync { raw with frames := raw.frames } =
            OCRSceneResult.sync raw := rfl
        rw [key]
        rw [if_pos ⟨by rw [sync_scene_id]; exact hc.1,
                    by rw [sync_frames]; exact hc.2.1,
                    by rw [sync_text]; exact hc.2.2.1,
                    sync_count_nonneg raw⟩]
        have h2 : exMapM OCRFrameResult.validate (OCRSceneResult.sync raw).frames =
            Except.ok ((OCRSceneResult.sync raw).frames) := by
          rw [sync_frames]; exact hmf
        rw [h2]
        simp only [Except.map]
        show Except.ok (OCRSceneResult.sync (OCRSceneResult.sync raw)) =
          Except.ok (OCRSceneResult.sync raw)
        rw [sync_idem]
  case isFalse hc => exact absurd h (by simp)

theorem OCRPipelineResult_validate_rt (raw x : OCRPipelineResult)
    (h : OCRPipelineResult.validate raw = Except.ok x) :
    OCRPipelineResult.validate x = Except.ok x := by
  unfold OCRPipelineResult.validate at h ⊢
  split at h
  case isTrue hc =>
    cases hms : exMapM OCRSceneResult.validate raw.scenes with
    | error e => rw [hms] at h; exact absurd h (by simp [Except.map])
    | ok ss =>
        rw [hms] at h
        simp only [Except.map] at h
        obtain rfl := (Except.ok.inj h).symm
        split
        case isTrue hc2 =>
          have hpro : ({ raw with scenes := ss } : OCRPipelineResult).scenes = ss := rfl
          rw [hpro, exMapM_roundtrip _ OCRSceneResult_validate_rt _ _ hms]
          rfl
        case isFalse hc2 => exact absurd hc hc2
  case isFalse hc => exact absurd h (by simp)

/-- C9: the round-trip law. Serialization of every schema entity to its
plain-value form is the identity on the field data, and reconstruction
re-runs the construction-time validators; hence the law `restore
(serialize x) = x` for validly constructed `x` is: every successful
output of a `validate` function is a fixed point of that function. This
holds for all eleven entities, `OCRSceneResult` included, whose
`_sync_char_count` model validator is idempotent. -/
theorem schema_roundtrip_spec :
    (∀ raw x, SceneBoundary.validate raw = Except.ok x →
      SceneBoundary.validate x = Except.ok x) ∧
    (∀ raw x, SceneDocument.validate raw = Except.ok x →
      SceneDocument.validate x = Except.ok x) ∧
    (∀ raw x, OCRBlock.validate raw = Except.ok x →
      OCRBlock.validate x = Except.ok x) ∧
    (∀ raw x, OCRFrameResult.validate raw = Except.ok x →
      OCRFrameResult.validate x = Except.ok x) ∧
    (∀ raw x, OCRSceneResult.validate raw = Except.ok x →
      OCRSceneResult.validate x = Except.ok x) ∧
    (∀ raw x, OCRPipelineResult.validate raw = Except.ok x →
      OCRPipelineResult.validate x = Except.ok x) ∧
    (∀ raw x, SceneDetectionResult.validate raw = Except.ok x →
      SceneDetectionResult.validate x = Except.ok x) ∧
    (∀ raw x, ShortsCandidate.validate raw = Except.ok x →
      ShortsCandidate.validate x = Except.ok x) ∧
    (∀ raw x, IngestSceneDocument.validate raw = Except.ok x →
      IngestSceneDocument.validate x = Except.ok x) ∧
    (∀ raw x, ExportClip.validate raw = Except.ok x →
      ExportClip.validate x = Except.ok x) ∧
    (∀ raw x, PipelineResult.validate raw = Except.ok x →
      PipelineResult.validate x = Except.ok x) := by
  refine ⟨?_, ?_, ?_, ?_, ?_, ?_, ?_, ?_, ?_, ?_, ?_⟩
  · intro raw x h; obtain rfl := SceneBoundary_validate_id raw x h; exact h
  · intro raw x h; obtain rfl := SceneDocument_validate_id raw x h; exact h
  · intro raw x h; obtain rfl := OCRBlock_validate_id raw x h; exact h
  · intro raw x h; obtain rfl := OCRFrameResult_validate_id raw x h; exact h
  · exact OCRSceneResult_validate_rt
  · exact OCRPipelineResult_validate_rt
  · intro raw x h; obtain rfl := SceneDetectionResult_validate_id raw x h; exact h
  · intro raw x h; obtain rfl := ShortsCandidate_validate_id raw x h; exact h
  · intro raw x h; obtain rfl := IngestSceneDocument_validate_id raw x h; exact h
  · intro raw x h; obtain rfl := ExportClip_validate_id raw x h; exact h
  · intro raw x h; obtain rfl := (Except.ok.inj h).symm; exact h

/-- Witness: a concrete `OCRSceneResult` whose raw `ocr_char_count` (7)
disagrees with its text; validation corrects it to 2, and the corrected
value round-trips to itself. -/
theorem schema_roundtrip_spec_witness :
    OCRSceneResult.validate ⟨"v_scene_1", [], "hi", 7⟩ =
      Except.ok ⟨"v_scene_1", [], "hi", 2⟩ ∧
    OCRSceneResult.validate ⟨"v_scene_1", [], "hi", 2⟩ =
      Except.ok ⟨"v_scene_1", [], "hi", 2⟩ :=
  ⟨by rfl, schema_roundtrip_spec.2.2.2.2.1 ⟨"v_scene_1", [], "hi", 7⟩
    ⟨"v_scene_1", [], "hi", 2⟩ (by rfl)⟩
